import Mathlib

/-!
# Protothreads (Protothread.h): the resumption protocol and its state machine

The class `Protothread` keeps one `unsigned short` field, `_ptLine`.  A subclass writes its
`Run()` method between `PT_BEGIN()` and `PT_END()`; the `PT_*` definitions of the header expand
to assignments to `_ptLine`, `case` labels of the `switch (_ptLine)` opened by `PT_BEGIN` and
`return` statements.

The development has three layers.

* `Expr`, `Stmt`, `exec`: the fragment of C++ the header expands to (sequencing, `if`, `while`,
  `return`, `case` labels inside a `switch`), with the rule of `switch`: control is transferred
  to the matching `case` label, wherever it is nested, and goes on from there.
* `PT_WAIT_UNTIL`, `PT_YIELD`, ...: the definitions of the header, written out one by one.
* `Body`: the bodies a subclass can write with them, and `Body.expand`.

`Ctx` describes a statement at a place of a body and what is executed after it; `RunEach` is a
driver that calls `Run()` repeatedly; `Records`, `Body.Reaches` and `Observable` say which
suspension points an execution reaches and which objects can be observed between operations.
-/

namespace Protothreads

/-! ## The class -/

/-- Number of values of `unsigned short` (the type `LineNumber`): 16 bits. -/
def LineNumberSize : Nat := 2 ^ 16

/-- The constant `LineNumberInvalid = (LineNumber)(-1)`: the conversion of `-1` to `LineNumber`. -/
def LineNumberInvalid : Nat := Int.toNat ((-1 : Int) % (LineNumberSize : Int))

/-- An object of a subclass of `Protothread`: the field `_ptLine` of the base class and the
fields `fields` that the subclass adds (timers, counters, child protothreads). -/
structure Protothread (σ : Type) where
  /-- The position, `LineNumber _ptLine`. -/
  _ptLine : Nat
  /-- The fields of the subclass. -/
  fields : σ
  deriving DecidableEq

namespace Protothread

variable {σ : Type}

/-- The constructor, `Protothread() : _ptLine(0) { }`. -/
def construct (fields : σ) : Protothread σ := { _ptLine := 0, fields := fields }

/-- The method `void Restart() { _ptLine = 0; }`. -/
def Restart (p : Protothread σ) : Protothread σ := { p with _ptLine := 0 }

/-- The method `void Stop() { _ptLine = LineNumberInvalid; }`. -/
def Stop (p : Protothread σ) : Protothread σ := { p with _ptLine := LineNumberInvalid }

/-- The method `bool IsRunning() { return _ptLine != LineNumberInvalid; }`. -/
def IsRunning (p : Protothread σ) : Bool := p._ptLine != LineNumberInvalid

end Protothread

/-! ## The C++ fragment of a `Run()` method -/

/-- Boolean expressions of a `Run()` method.  `member e` is an expression of the subclass over
its fields; it may change them (as `(child).Run()` does) and its evaluation may fail to produce
a value (`none`), which is how a call that does not return is represented. -/
inductive Expr (σ : Type) where
  /-- The local variable `ptYielded`. -/
  | ptYielded : Expr σ
  /-- An expression of the subclass. -/
  | member (e : σ → Option (Bool × σ)) : Expr σ
  /-- Negation, `!(e)`. -/
  | not (e : Expr σ) : Expr σ
  /-- Disjunction `a || b`: `b` is evaluated only when `a` is false. -/
  | or (a b : Expr σ) : Expr σ

/-- Value of an expression and the fields after its evaluation; `y` is the value of
`ptYielded`. -/
def Expr.eval {σ : Type} : Expr σ → Bool → σ → Option (Bool × σ)
  | .ptYielded, y, s => some (y, s)
  | .member e, _, s => e s
  | .not e, y, s =>
    match e.eval y s with
    | none => none
    | some (v, s1) => some (!v, s1)
  | .or a b, y, s =>
    match a.eval y s with
    | none => none
    | some (true, s1) => some (true, s1)
    | some (false, s1) => b.eval y s1

/-- Statements of a `Run()` method between the `switch (_ptLine) {` of `PT_BEGIN` and the `}`
of `PT_END`. -/
inductive Stmt (σ : Type) where
  /-- The empty statement. -/
  | skip : Stmt σ
  /-- A statement of the subclass acting on its fields, such as `_timer.Start(250);`. -/
  | call (f : σ → σ) : Stmt σ
  /-- The assignment `ptYielded = b;`. -/
  | assignYielded (b : Bool) : Stmt σ
  /-- The assignment `_ptLine = n;` of an `int` constant to the `unsigned short` field. -/
  | assignLine (n : Nat) : Stmt σ
  /-- The label `case n:`. -/
  | caseLabel (n : Nat) : Stmt σ
  /-- The statement `return r;`. -/
  | ret (r : Bool) : Stmt σ
  /-- The call `Restart();` on the object itself. -/
  | Restart : Stmt σ
  /-- The call `Stop();` on the object itself. -/
  | Stop : Stmt σ
  /-- Sequence `a b`. -/
  | seq (a b : Stmt σ) : Stmt σ
  /-- Conditional `if (e) a else b`. -/
  | ite (e : Expr σ) (a b : Stmt σ) : Stmt σ
  /-- Loop `while (e) s`. -/
  | whileDo (e : Expr σ) (s : Stmt σ) : Stmt σ

/-- How the execution of a statement ends. -/
inductive Outcome (σ : Type) where
  /-- Control reaches the end of the statement; `y` is the value of `ptYielded`. -/
  | next (y : Bool) (p : Protothread σ) : Outcome σ
  /-- A `return r;` was executed. -/
  | returned (r : Bool) (p : Protothread σ) : Outcome σ
  /-- The `case` label the `switch` transfers control to is not inside the statement: the
  statement is passed over and nothing of it is executed. -/
  | seeking : Outcome σ
  deriving DecidableEq

/-- The loop `while (e) s` once control is at its test; `body` executes `s`.  `fuel` bounds the
number of evaluations of the test: `none` when it is used up. -/
def whileFrom {σ : Type} (e : Expr σ) (body : Bool → Protothread σ → Option (Outcome σ)) :
    Nat → Bool → Protothread σ → Option (Outcome σ)
  | 0, _, _ => none
  | fuel + 1, y, p =>
    match e.eval y p.fields with
    | none => none
    | some (false, s1) => some (.next y { p with fields := s1 })
    | some (true, s1) =>
      match body y { p with fields := s1 } with
      | some (.next y2 p2) => whileFrom e body fuel y2 p2
      | o => o

/-- Execution of a statement inside the `switch`.  With `target = none` the statement is
executed from its beginning.  With `target = some t` the `switch` is transferring control to
the label `case t:`: nothing is executed until the label is found, and execution goes on from
there (the tests of the enclosing `if` and `while` statements are not evaluated on the way
in). -/
def exec {σ : Type} (fuel : Nat) : Stmt σ → Option Nat → Bool → Protothread σ →
    Option (Outcome σ)
  | .skip, none, y, p => some (.next y p)
  | .call f, none, y, p => some (.next y { p with fields := f p.fields })
  | .assignYielded b, none, _, p => some (.next b p)
  | .assignLine n, none, y, p => some (.next y { p with _ptLine := n % LineNumberSize })
  | .caseLabel _, none, y, p => some (.next y p)
  | .ret r, none, _, p => some (.returned r p)
  | .Restart, none, y, p => some (.next y p.Restart)
  | .Stop, none, y, p => some (.next y p.Stop)
  | .seq a b, none, y, p =>
    match exec fuel a none y p with
    | some (.next y1 p1) => exec fuel b none y1 p1
    | o => o
  | .ite e a b, none, y, p =>
    match e.eval y p.fields with
    | none => none
    | some (true, s1) => exec fuel a none y { p with fields := s1 }
    | some (false, s1) => exec fuel b none y { p with fields := s1 }
  | .whileDo e s, none, y, p => whileFrom e (fun y1 p1 => exec fuel s none y1 p1) fuel y p
  | .caseLabel n, some t, y, p => if n = t then some (.next y p) else some .seeking
  | .seq a b, some t, y, p =>
    match exec fuel a (some t) y p with
    | some .seeking => exec fuel b (some t) y p
    | some (.next y1 p1) => exec fuel b none y1 p1
    | o => o
  | .ite _ a b, some t, y, p =>
    match exec fuel a (some t) y p with
    | some .seeking => exec fuel b (some t) y p
    | o => o
  | .whileDo e s, some t, y, p =>
    match exec fuel s (some t) y p with
    | some (.next y1 p1) => whileFrom e (fun y2 p2 => exec fuel s none y2 p2) fuel y1 p1
    | o => o
  | .skip, some _, _, _ => some .seeking
  | .call _, some _, _, _ => some .seeking
  | .assignYielded _, some _, _, _ => some .seeking
  | .assignLine _, some _, _, _ => some .seeking
  | .ret _, some _, _, _ => some .seeking
  | .Restart, some _, _, _ => some .seeking
  | .Stop, some _, _, _ => some .seeking

/-- The case labels written in a statement. -/
def Stmt.labels {σ : Type} : Stmt σ → List Nat
  | .caseLabel n => [n]
  | .seq a b => a.labels ++ b.labels
  | .ite _ a b => a.labels ++ b.labels
  | .whileDo _ s => s.labels
  | _ => []

/-- The opening `PT_BEGIN()`,
`bool ptYielded = true; (void) ptYielded; switch (_ptLine) { case 0:`, put before `body`: the
statements inside the `switch`.  The initial value of `ptYielded` and the value switched on are
supplied by `Protothread.Run`. -/
def PT_BEGIN {σ : Type} (body : Stmt σ) : Stmt σ := .seq (.caseLabel 0) body

/-- The closing `PT_END()`, `default: ; } Stop(); return false;`, given how the statements
inside the `switch` ended; `p` is the object as it was when the `switch` was entered.  A
`return` inside the `switch` is the return of `Run()`.  When control reaches the end of the
`switch`, or when no `case` label matched and the `switch` went to `default:`, the statements
`Stop(); return false;` follow. -/
def PT_END {σ : Type} (p : Protothread σ) : Option (Outcome σ) → Option (Bool × Protothread σ)
  | none => none
  | some (.returned r p1) => some (r, p1)
  | some (.next _ p1) => some (false, p1.Stop)
  | some .seeking => some (false, p.Stop)

/-- The method `Run()` of a subclass whose text is `PT_BEGIN();` followed by `body` and
`PT_END();`.  The `switch` transfers control to the label equal to `_ptLine`: `case 0:`, a
label of `body`, or else `default:`.  The result is the value returned and the object after the
call, or `none` when a loop of the body used up `fuel`. -/
def Protothread.Run {σ : Type} (fuel : Nat) (body : Stmt σ) (p : Protothread σ) :
    Option (Bool × Protothread σ) :=
  PT_END p (exec fuel (PT_BEGIN body) (some p._ptLine) true p)

/-! ## The definitions of the header

Each one takes the line it is written on, the value of `__LINE__`, as its first argument. -/

section Header

variable {σ : Type}

/-- The block `do { s } while (0)`: `s` is executed once, also when control enters it at a
label inside `s`. -/
def doWhile0 (s : Stmt σ) : Stmt σ := s

/-- The statement `if (e) return r;`. -/
def ifReturn (e : Expr σ) (r : Bool) : Stmt σ := .ite e (.ret r) .skip

/-- The definition
`PT_WAIT_UNTIL(condition)`:
`do { _ptLine = __LINE__; case __LINE__: if (!(condition)) return true; } while (0)`. -/
def PT_WAIT_UNTIL (line : Nat) (condition : Expr σ) : Stmt σ :=
  doWhile0 (.seq (.assignLine line) (.seq (.caseLabel line) (ifReturn (.not condition) true)))

/-- The definition `PT_WAIT_WHILE(condition)`: `PT_WAIT_UNTIL(!(condition))`. -/
def PT_WAIT_WHILE (line : Nat) (condition : Expr σ) : Stmt σ :=
  PT_WAIT_UNTIL line (.not condition)

/-- A child protothread held as a field, seen from the parent: the effect on the parent's
fields of the two methods the header calls on it. -/
structure Child (σ : Type) where
  /-- The call `(child).Run()`: its value and the parent's fields after it. -/
  Run : σ → Option (Bool × σ)
  /-- The call `(child).Restart()`. -/
  Restart : σ → σ

/-- The definition `PT_WAIT_THREAD(child)`: `PT_WAIT_WHILE((child).Run())`. -/
def PT_WAIT_THREAD (line : Nat) (child : Child σ) : Stmt σ :=
  PT_WAIT_WHILE line (.member child.Run)

/-- The definition
`PT_SPAWN(child)`: `do { (child).Restart(); PT_WAIT_THREAD(child); } while (0)`. -/
def PT_SPAWN (line : Nat) (child : Child σ) : Stmt σ :=
  doWhile0 (.seq (.call child.Restart) (PT_WAIT_THREAD line child))

/-- The definition `PT_RESTART()`: `do { Restart(); return true; } while (0)`. -/
def PT_RESTART : Stmt σ := doWhile0 (.seq .Restart (.ret true))

/-- The definition `PT_EXIT()`: `do { Stop(); return false; } while (0)`. -/
def PT_EXIT : Stmt σ := doWhile0 (.seq .Stop (.ret false))

/-- The definition
`PT_YIELD()`:
`do { ptYielded = false; _ptLine = __LINE__; case __LINE__: if (!ptYielded) return true; } while (0)`. -/
def PT_YIELD (line : Nat) : Stmt σ :=
  doWhile0 (.seq (.assignYielded false) (.seq (.assignLine line)
    (.seq (.caseLabel line) (ifReturn (.not .ptYielded) true))))

/-- The definition
`PT_YIELD_UNTIL(condition)`:
`do { ptYielded = false; _ptLine = __LINE__; case __LINE__:
if (!ptYielded || !(condition)) return true; } while (0)`. -/
def PT_YIELD_UNTIL (line : Nat) (condition : Expr σ) : Stmt σ :=
  doWhile0 (.seq (.assignYielded false) (.seq (.assignLine line)
    (.seq (.caseLabel line) (ifReturn (.or (.not .ptYielded) (.not condition)) true))))

end Header

/-! ## Bodies of `Run()` methods -/

/-- The text a subclass writes between `PT_BEGIN();` and `PT_END();`: its own statements,
calls of `Stop()` and `Restart()` on itself, the `PT_*` statements of the header (each with the
line it stands on), sequences, conditionals and loops. -/
inductive Body (σ : Type) where
  /-- The empty statement. -/
  | skip : Body σ
  /-- A statement of the subclass acting on its fields. -/
  | stmt (f : σ → σ) : Body σ
  /-- The call `Stop();`. -/
  | Stop : Body σ
  /-- The call `Restart();`. -/
  | Restart : Body σ
  /-- The statement `PT_WAIT_UNTIL(condition);`. -/
  | PT_WAIT_UNTIL (line : Nat) (condition : σ → Option (Bool × σ)) : Body σ
  /-- The statement `PT_WAIT_WHILE(condition);`. -/
  | PT_WAIT_WHILE (line : Nat) (condition : σ → Option (Bool × σ)) : Body σ
  /-- The statement `PT_WAIT_THREAD(child);`. -/
  | PT_WAIT_THREAD (line : Nat) (child : Child σ) : Body σ
  /-- The statement `PT_SPAWN(child);`. -/
  | PT_SPAWN (line : Nat) (child : Child σ) : Body σ
  /-- The statement `PT_RESTART();`. -/
  | PT_RESTART : Body σ
  /-- The statement `PT_EXIT();`. -/
  | PT_EXIT : Body σ
  /-- The statement `PT_YIELD();`. -/
  | PT_YIELD (line : Nat) : Body σ
  /-- The statement `PT_YIELD_UNTIL(condition);`. -/
  | PT_YIELD_UNTIL (line : Nat) (condition : σ → Option (Bool × σ)) : Body σ
  /-- Sequence. -/
  | seq (a b : Body σ) : Body σ
  /-- Conditional `if (c) a else b`. -/
  | ite (c : σ → Option (Bool × σ)) (a b : Body σ) : Body σ
  /-- Loop `while (c) s`. -/
  | whileDo (c : σ → Option (Bool × σ)) (s : Body σ) : Body σ

namespace Body

variable {σ : Type}

/-- The statement a body stands for, every `PT_*` statement replaced by its definition. -/
def expand : Body σ → Stmt σ
  | .skip => .skip
  | .stmt f => .call f
  | .Stop => .Stop
  | .Restart => .Restart
  | .PT_WAIT_UNTIL line c => Protothreads.PT_WAIT_UNTIL line (.member c)
  | .PT_WAIT_WHILE line c => Protothreads.PT_WAIT_WHILE line (.member c)
  | .PT_WAIT_THREAD line child => Protothreads.PT_WAIT_THREAD line child
  | .PT_SPAWN line child => Protothreads.PT_SPAWN line child
  | .PT_RESTART => Protothreads.PT_RESTART
  | .PT_EXIT => Protothreads.PT_EXIT
  | .PT_YIELD line => Protothreads.PT_YIELD line
  | .PT_YIELD_UNTIL line c => Protothreads.PT_YIELD_UNTIL line (.member c)
  | .seq a b => .seq a.expand b.expand
  | .ite c a b => .ite (.member c) a.expand b.expand
  | .whileDo c s => .whileDo (.member c) s.expand

/-- The lines of the suspension points of a body, in the order of the text. -/
def lines : Body σ → List Nat
  | .PT_WAIT_UNTIL line _ => [line]
  | .PT_WAIT_WHILE line _ => [line]
  | .PT_WAIT_THREAD line _ => [line]
  | .PT_SPAWN line _ => [line]
  | .PT_YIELD line => [line]
  | .PT_YIELD_UNTIL line _ => [line]
  | .seq a b => a.lines ++ b.lines
  | .ite _ a b => a.lines ++ b.lines
  | .whileDo _ s => s.lines
  | _ => []

/-- The method `Run()` whose text is `PT_BEGIN(); body PT_END();`. -/
def Run (fuel : Nat) (body : Body σ) (p : Protothread σ) : Option (Bool × Protothread σ) :=
  p.Run fuel body.expand

/-- What C++ and the type `LineNumber` ask of the text of a body: no two suspension points stand
on one line (two equal `case` labels in one `switch` are rejected by the compiler), and every
suspension point stands on a line from 1 to 65534, the line numbers that `_ptLine` stores
unchanged and that differ from both `0` and `LineNumberInvalid`. -/
def WellFormed (body : Body σ) : Prop :=
  body.lines.Nodup ∧ ∀ l ∈ body.lines, 0 < l ∧ l < LineNumberInvalid

instance (body : Body σ) : Decidable body.WellFormed := by
  unfold WellFormed; infer_instance

/-- The suspension points of a body can all be resumed: no two of them stand on one line (the
compiler rejects two equal `case` labels), and every one stands on a line from 1 to 65535, the
line numbers that `_ptLine` stores unchanged and that differ from 0. -/
def LinesFit (body : Body σ) : Prop :=
  body.lines.Nodup ∧ ∀ l ∈ body.lines, 0 < l ∧ l < LineNumberSize

instance (body : Body σ) : Decidable body.LinesFit := by
  unfold LinesFit; infer_instance

end Body

/-! ## A statement at a place in a body -/

/-- A body with one place left open, the hole: the text around a statement of a body. -/
inductive Ctx (σ : Type) where
  /-- The hole itself. -/
  | hole : Ctx σ
  /-- The hole is in the first part of a sequence. -/
  | seqL (c : Ctx σ) (b : Body σ) : Ctx σ
  /-- The hole is in the second part of a sequence. -/
  | seqR (a : Body σ) (c : Ctx σ) : Ctx σ
  /-- The hole is in the first branch of a conditional. -/
  | iteT (e : σ → Option (Bool × σ)) (c : Ctx σ) (b : Body σ) : Ctx σ
  /-- The hole is in the second branch of a conditional. -/
  | iteE (e : σ → Option (Bool × σ)) (a : Body σ) (c : Ctx σ) : Ctx σ
  /-- The hole is in the statement of a loop. -/
  | whileDo (e : σ → Option (Bool × σ)) (c : Ctx σ) : Ctx σ

namespace Ctx

variable {σ : Type}

/-- The body obtained by writing `b` in the hole. -/
def fill : Ctx σ → Body σ → Body σ
  | .hole, b => b
  | .seqL c b1, b => .seq (c.fill b) b1
  | .seqR a c, b => .seq a (c.fill b)
  | .iteT e c b1, b => .ite e (c.fill b) b1
  | .iteE e a c, b => .ite e a (c.fill b)
  | .whileDo e c, b => .whileDo e (c.fill b)

/-- The lines of the suspension points of the text around the hole. -/
def lines : Ctx σ → List Nat
  | .hole => []
  | .seqL c b1 => c.lines ++ b1.lines
  | .seqR a c => a.lines ++ c.lines
  | .iteT _ c b1 => c.lines ++ b1.lines
  | .iteE _ a c => a.lines ++ c.lines
  | .whileDo _ c => c.lines

/-- What is executed after the statement `b` written in the hole, given how the execution of
`b` ended: the statements that follow it in the enclosing sequences, and the further turns of
the enclosing loops. -/
def after (fuel : Nat) (b : Body σ) : Ctx σ → Option (Outcome σ) → Option (Outcome σ)
  | .hole, o => o
  | .seqL c b1, o =>
    match c.after fuel b o with
    | some (.next y p) => exec fuel b1.expand none y p
    | o1 => o1
  | .seqR _ c, o => c.after fuel b o
  | .iteT _ c _, o => c.after fuel b o
  | .iteE _ _ c, o => c.after fuel b o
  | .whileDo e c, o =>
    match c.after fuel b o with
    | some (.next y p) =>
      whileFrom (.member e) (fun y1 p1 => exec fuel (c.fill b).expand none y1 p1) fuel y p
    | o1 => o1

end Ctx

/-! ## The driver and child protothreads -/

/-- The driver: before each call of `Run()` the environment changes the fields (a timer
expires, a flag is set) by the next function of the list.  The result is the list of the values
returned by the calls and the object after the last one. -/
def RunEach {σ : Type} (fuel : Nat) (body : Body σ) :
    List (σ → σ) → Protothread σ → Option (List Bool × Protothread σ)
  | [], p => some ([], p)
  | e :: es, p =>
    match body.Run fuel { p with fields := e p.fields } with
    | none => none
    | some (r, p1) =>
      match RunEach fuel body es p1 with
      | none => none
      | some (rs, p2) => some (r :: rs, p2)

/-- The fields after the environment made the changes of the list and nothing else did. -/
def envOnly {σ : Type} (es : List (σ → σ)) (s : σ) : σ := es.foldl (fun s1 e => e s1) s

/-- A parent whose fields are a child protothread (with fields `τ`) and further fields `ρ`: the
child as the header uses it, `childRun` being the child's `Run()` method. -/
def Child.member {τ ρ : Type} (childRun : Protothread τ → Option (Bool × Protothread τ)) :
    Child (Protothread τ × ρ) where
  Run := fun s =>
    match childRun s.1 with
    | none => none
    | some (r, c) => some (r, (c, s.2))
  Restart := fun s => (s.1.Restart, s.2)

/-- The body of `n` statements `PT_YIELD();` standing on the lines of the list, one after the
other. -/
def yields {σ : Type} : List Nat → Body σ
  | [] => .skip
  | l :: ls => .seq (.PT_YIELD l) (yields ls)

/-! ## Suspension points reached by an execution -/

/-- The lines assigned to `_ptLine` in a statement: the constants of its assignments
`_ptLine = n;`. -/
def Stmt.assigned {σ : Type} : Stmt σ → List Nat
  | .assignLine n => [n]
  | .seq a b => a.assigned ++ b.assigned
  | .ite _ a b => a.assigned ++ b.assigned
  | .whileDo _ s => s.assigned
  | _ => []

/-- The execution `exec fuel s target y p` executes the assignment `_ptLine = l;`: it reaches
the suspension point written on line `l`.  The rules follow `exec`: an assignment is reached
when control passes through it, in a sequence, a branch or a turn of a loop that is
executed. -/
inductive Records {σ : Type} (fuel : Nat) :
    Stmt σ → Option Nat → Bool → Protothread σ → Nat → Prop where
  /-- The assignment itself, executed. -/
  | assign (l : Nat) (y : Bool) (p : Protothread σ) : Records fuel (.assignLine l) none y p l
  /-- In the first part of a sequence. -/
  | seqFirst {a b : Stmt σ} {m : Option Nat} {y : Bool} {p : Protothread σ} {l : Nat} :
      Records fuel a m y p l → Records fuel (.seq a b) m y p l
  /-- In the second part of a sequence, the first part having run to its end. -/
  | seqSecond {a b : Stmt σ} {m : Option Nat} {y y1 : Bool} {p p1 : Protothread σ} {l : Nat} :
      exec fuel a m y p = some (.next y1 p1) → Records fuel b none y1 p1 l →
      Records fuel (.seq a b) m y p l
  /-- In the second part of a sequence, the label being there. -/
  | seqSeek {a b : Stmt σ} {t : Nat} {y : Bool} {p : Protothread σ} {l : Nat} :
      exec fuel a (some t) y p = some .seeking → Records fuel b (some t) y p l →
      Records fuel (.seq a b) (some t) y p l
  /-- In the first branch of a conditional whose test is true. -/
  | iteTrue {e : Expr σ} {a b : Stmt σ} {y : Bool} {p : Protothread σ} {s1 : σ} {l : Nat} :
      e.eval y p.fields = some (true, s1) → Records fuel a none y { p with fields := s1 } l →
      Records fuel (.ite e a b) none y p l
  /-- In the second branch of a conditional whose test is false. -/
  | iteFalse {e : Expr σ} {a b : Stmt σ} {y : Bool} {p : Protothread σ} {s1 : σ} {l : Nat} :
      e.eval y p.fields = some (false, s1) → Records fuel b none y { p with fields := s1 } l →
      Records fuel (.ite e a b) none y p l
  /-- In the first branch of a conditional, the label being there. -/
  | iteSeekFirst {e : Expr σ} {a b : Stmt σ} {t : Nat} {y : Bool} {p : Protothread σ} {l : Nat} :
      Records fuel a (some t) y p l → Records fuel (.ite e a b) (some t) y p l
  /-- In the second branch of a conditional, the label being there. -/
  | iteSeekSecond {e : Expr σ} {a b : Stmt σ} {t : Nat} {y : Bool} {p : Protothread σ}
      {l : Nat} :
      exec fuel a (some t) y p = some .seeking → Records fuel b (some t) y p l →
      Records fuel (.ite e a b) (some t) y p l
  /-- In the turn of a loop that begins now. -/
  | whileTurn {e : Expr σ} {s : Stmt σ} {y : Bool} {p : Protothread σ} {s1 : σ} {l : Nat} :
      e.eval y p.fields = some (true, s1) → Records fuel s none y { p with fields := s1 } l →
      Records fuel (.whileDo e s) none y p l
  /-- In a later turn of a loop, the turn that begins now having run to its end. -/
  | whileLater {e : Expr σ} {s : Stmt σ} {y y2 : Bool} {p p2 : Protothread σ} {s1 : σ}
      {l : Nat} :
      e.eval y p.fields = some (true, s1) →
      exec fuel s none y { p with fields := s1 } = some (.next y2 p2) →
      Records fuel (.whileDo e s) none y2 p2 l → Records fuel (.whileDo e s) none y p l
  /-- In the turn of a loop that control is transferred into. -/
  | whileSeek {e : Expr σ} {s : Stmt σ} {t : Nat} {y : Bool} {p : Protothread σ} {l : Nat} :
      Records fuel s (some t) y p l → Records fuel (.whileDo e s) (some t) y p l
  /-- In a later turn of a loop that control is transferred into. -/
  | whileSeekLater {e : Expr σ} {s : Stmt σ} {t : Nat} {y y1 : Bool} {p p1 : Protothread σ}
      {l : Nat} :
      exec fuel s (some t) y p = some (.next y1 p1) →
      Records fuel (.whileDo e s) none y1 p1 l → Records fuel (.whileDo e s) (some t) y p l

/-- The call `Run()` of `body` on the object `p` reaches the suspension point written on line
`l`. -/
def Body.Reaches {σ : Type} (fuel : Nat) (body : Body σ) (p : Protothread σ) (l : Nat) : Prop :=
  Records fuel (PT_BEGIN body.expand) (some p._ptLine) true p l

/-- The objects that can be observed between operations: the states reached from a newly
constructed object by any finite sequence of calls of `Run()` (each with any fuel, counted only
when the call returns), `Restart()` and `Stop()`, and of changes made to the fields by the
environment. -/
inductive Observable {σ : Type} (body : Body σ) : Protothread σ → Prop where
  /-- A newly constructed object. -/
  | construct (s : σ) : Observable body (Protothread.construct s)
  /-- After a call of `Run()` that returned. -/
  | step (fuel : Nat) {p p1 : Protothread σ} {r : Bool} :
      Observable body p → body.Run fuel p = some (r, p1) → Observable body p1
  /-- After a call of `Restart()`. -/
  | restart {p : Protothread σ} : Observable body p → Observable body p.Restart
  /-- After a call of `Stop()`. -/
  | stop {p : Protothread σ} : Observable body p → Observable body p.Stop
  /-- After a change of the fields by the environment. -/
  | env (f : σ → σ) {p : Protothread σ} :
      Observable body p → Observable body { p with fields := f p.fields }

/-- The object an execution ends with, when something was executed. -/
def Outcome.object {σ : Type} : Outcome σ → Option (Protothread σ)
  | .next _ p => some p
  | .returned _ p => some p
  | .seeking => none

/-- What the position `v` left by the execution `exec fuel s target y p` can be: the position
`p` had, 0, `LineNumberInvalid`, or the value stored by a suspension point that the execution
reached. -/
def PosFrom {σ : Type} (fuel : Nat) (s : Stmt σ) (target : Option Nat) (y : Bool)
    (p : Protothread σ) (v : Nat) : Prop :=
  v = p._ptLine ∨ v = 0 ∨ v = LineNumberInvalid ∨
    ∃ l, Records fuel s target y p l ∧ v = l % LineNumberSize

/-! ## Sample bodies -/

/-- A body with one statement before a wait and one after it, on the fields `(flag, count)`. -/
def sampleWait : Body (Bool × Nat) :=
  .seq (.stmt fun s => (s.1, s.2 + 1))
    (.seq (.PT_WAIT_UNTIL 7 fun s => some (s.1, s)) (.stmt fun s => (s.1, s.2 + 10)))

/-- A place inside a loop, in the first branch of a conditional: the text
`while (more) { if (flag) { count += 1; [hole] count += 10; } else { count += 100; } }`
on the fields `(flag, more, count)`. -/
def samplePlace : Ctx (Bool × Bool × Nat) :=
  .whileDo (fun s => some (s.2.1, s))
    (.iteT (fun s => some (s.1, s))
      (.seqR (.stmt fun s => (s.1, s.2.1, s.2.2 + 1))
        (.seqL .hole (.stmt fun s => (s.1, false, s.2.2 + 10))))
      (.stmt fun s => (s.1, s.2.1, s.2.2 + 100)))

/-- The body `PT_WAIT_UNTIL(A); PT_WAIT_UNTIL(B);` on the fields `(A, B)`, the two statements
standing on lines `lA` and `lB`. -/
def waitAB (lA lB : Nat) : Body (Bool × Bool) :=
  .seq (.PT_WAIT_UNTIL lA fun s => some (s.1, s)) (.PT_WAIT_UNTIL lB fun s => some (s.2, s))

/-- The child body `PT_WAIT_UNTIL(C);` on line `lc`, on the fields `(C, passes)`: the condition
reads the flag `C`, and counts in `passes` the times it was found true, that is, the times the
child ran to its end. -/
def waitC (lc : Nat) : Body (Bool × Nat) :=
  .PT_WAIT_UNTIL lc fun s => some (s.1, (s.1, if s.1 then s.2 + 1 else s.2))

/-- The parent body `PT_SPAWN(child); PT_SPAWN(child);` on lines `l1` and `l2`, the child being
a field of the parent with the body `waitC lc`. -/
def spawnTwice (fc l1 l2 lc : Nat) : Body (Protothread (Bool × Nat) × Unit) :=
  .seq (.PT_SPAWN l1 (Child.member ((waitC lc).Run fc)))
    (.PT_SPAWN l2 (Child.member ((waitC lc).Run fc)))

/-- The environment sets the flag `C` of the child of `spawnTwice`. -/
def setC (v : Bool) (s : Protothread (Bool × Nat) × Unit) : Protothread (Bool × Nat) × Unit :=
  (⟨s.1._ptLine, (v, s.1.fields.2)⟩, s.2)

/-- The body `Stop(); PT_WAIT_UNTIL(flag);` with the wait on line 5, on the field `flag`. -/
def stopThenWait : Body Bool :=
  .seq .Stop (.PT_WAIT_UNTIL 5 fun s => some (s, s))

/-- The body `PT_WAIT_UNTIL(flag);` written on line 65535 of its file, on the field `flag`. -/
def waitOnLine65535 : Body Bool :=
  .PT_WAIT_UNTIL 65535 fun s => some (s, s)

/-- The body `count += 1; PT_YIELD();` with the yield written on line 65536 of its file. -/
def yieldOnLine65536 : Body Nat :=
  .seq (.stmt fun s => s + 1) (.PT_YIELD 65536)

/-- The body `for (_i = 0; _i < n; _i++) { work(_i); PT_YIELD(); }` on the fields `(_i, t)`,
the yield standing on line `l`; `work i` is the effect of `work(_i)` on the other fields when
the counter is `i`.  The `for` statement is written as `_i = 0; while (_i < n) { ...; _i++; }`. -/
def forYield {τ : Type} (n l : Nat) (work : Nat → τ → τ) : Body (Nat × τ) :=
  .seq (.stmt fun s => (0, s.2))
    (.whileDo (fun s => some (decide (s.1 < n), s))
      (.seq (.stmt fun s => (s.1, work s.1 s.2))
        (.seq (.PT_YIELD l) (.stmt fun s => (s.1 + 1, s.2)))))

/-- The fields `t` after `work(0)`, ..., `work(k - 1)` were executed in this order. -/
def workDone {τ : Type} (work : Nat → τ → τ) (k : Nat) (t : τ) : τ :=
  (List.range k).foldl (fun t1 i => work i t1) t

/-- The body `count += 1; PT_WAIT_UNTIL(flag);` with the wait written on line 65536 of its
file, on the fields `(flag, count)`. -/
def waitOnLine65536 : Body (Bool × Nat) :=
  .seq (.stmt fun s => (s.1, s.2 + 1)) (.PT_WAIT_UNTIL 65536 fun s => some (s.1, s))

/-- The body `PT_YIELD();` written on line 131071 (`131071 = 65536 + 65535`) of its file. -/
def yieldOnLine131071 : Body Nat :=
  .PT_YIELD 131071

/-- The parent body `PT_SPAWN(child);` written on line 65537 of its file, the child having two
yields on lines 3 and 4. -/
def spawnOnLine65537 : Body (Protothread Nat × Unit) :=
  .PT_SPAWN 65537 (Child.member ((yields [3, 4]).Run 0))

/-- A child whose `Run()` counts its calls in the parent's field and reports that it has
ended. -/
def callCounter : Child Nat where
  Run := fun s => some (false, s + 1)
  Restart := fun s => s

/-- The parent body `PT_WAIT_THREAD(child); PT_WAIT_THREAD(child);` on lines 3 and 4, the child
being `callCounter`. -/
def waitThreadTwice : Body Nat :=
  .seq (.PT_WAIT_THREAD 3 callCounter) (.PT_WAIT_THREAD 4 callCounter)

/-! # Properties -/

section Basics

variable {σ : Type}

theorem LineNumberInvalid_eq : LineNumberInvalid = 65535 := by decide

theorem LineNumberSize_eq : LineNumberSize = 65536 := by decide

theorem line_mod_of_lt {l : Nat} (h : l < LineNumberInvalid) : l % LineNumberSize = l := by
  rw [LineNumberInvalid_eq] at h
  rw [LineNumberSize_eq]
  omega

theorem line_mod_of_lt_size {l : Nat} (h : l < LineNumberSize) : l % LineNumberSize = l :=
  Nat.mod_eq_of_lt h

/-- A statement that does not contain the label is passed over. -/
theorem exec_seek_miss (fuel : Nat) (s : Stmt σ) (t : Nat) (y : Bool) (p : Protothread σ)
    (h : t ∉ s.labels) : exec fuel s (some t) y p = some .seeking := by
  induction s with
  | caseLabel n =>
    have hn : n ≠ t := by
      intro e
      exact h (by simp [Stmt.labels, e])
    simp [exec, hn]
  | seq a b iha ihb =>
    simp only [Stmt.labels, List.mem_append, not_or] at h
    simp [exec, iha h.1, ihb h.2]
  | ite e a b iha ihb =>
    simp only [Stmt.labels, List.mem_append, not_or] at h
    simp [exec, iha h.1, ihb h.2]
  | whileDo e s ih =>
    simp only [Stmt.labels] at h
    simp [exec, ih h]
  | _ => simp [exec]

theorem labels_expand (b : Body σ) : b.expand.labels = b.lines := by
  induction b with
  | seq a b iha ihb => simp [Body.expand, Body.lines, Stmt.labels, iha, ihb]
  | ite c a b iha ihb => simp [Body.expand, Body.lines, Stmt.labels, iha, ihb]
  | whileDo c s ih => simp [Body.expand, Body.lines, Stmt.labels, ih]
  | _ =>
    simp [Body.expand, Body.lines, Stmt.labels, PT_WAIT_UNTIL, PT_WAIT_WHILE, PT_WAIT_THREAD,
      PT_SPAWN, PT_RESTART, PT_EXIT, PT_YIELD, PT_YIELD_UNTIL, doWhile0, ifReturn]

/-- A body none of whose suspension points stands on line `t` is passed over. -/
theorem exec_body_miss (fuel : Nat) (b : Body σ) (t : Nat) (y : Bool) (p : Protothread σ)
    (h : t ∉ b.lines) : exec fuel b.expand (some t) y p = some .seeking :=
  exec_seek_miss fuel _ t y p (by rw [labels_expand]; exact h)

theorem after_returned (fuel : Nat) (b : Body σ) (c : Ctx σ) (r : Bool) (p : Protothread σ) :
    c.after fuel b (some (.returned r p)) = some (.returned r p) := by
  induction c with
  | hole => rfl
  | seqL c b1 ih => simp [Ctx.after, ih]
  | seqR a c ih => simp [Ctx.after, ih]
  | iteT e c b1 ih => simp [Ctx.after, ih]
  | iteE e a c ih => simp [Ctx.after, ih]
  | whileDo e c ih => simp [Ctx.after, ih]

theorem after_none (fuel : Nat) (b : Body σ) (c : Ctx σ) :
    c.after fuel b none = none := by
  induction c with
  | hole => rfl
  | seqL c b1 ih => simp [Ctx.after, ih]
  | seqR a c ih => simp [Ctx.after, ih]
  | iteT e c b1 ih => simp [Ctx.after, ih]
  | iteE e a c ih => simp [Ctx.after, ih]
  | whileDo e c ih => simp [Ctx.after, ih]

/-- Control transferred to a label of the statement in the hole: the statement is executed
from the label, and then what comes after it. -/
theorem exec_seek_in_ctx (fuel : Nat) (b : Body σ) (c : Ctx σ) (t : Nat) (y : Bool)
    (p : Protothread σ) (h : t ∉ c.lines) :
    exec fuel (c.fill b).expand (some t) y p
      = c.after fuel b (exec fuel b.expand (some t) y p) := by
  induction c with
  | hole => rfl
  | seqL c b1 ih =>
    simp only [Ctx.lines, List.mem_append, not_or] at h
    simp only [Ctx.fill, Body.expand, exec, Ctx.after, ih h.1]
    cases hc : c.after fuel b (exec fuel b.expand (some t) y p) with
    | none => rfl
    | some o =>
      cases o with
      | next y1 p1 => rfl
      | returned r p1 => rfl
      | seeking => simp [exec_body_miss fuel b1 t y p h.2]
  | seqR a c ih =>
    simp only [Ctx.lines, List.mem_append, not_or] at h
    simp only [Ctx.fill, Body.expand, exec, Ctx.after, exec_body_miss fuel a t y p h.1, ih h.2]
  | iteT e c b1 ih =>
    simp only [Ctx.lines, List.mem_append, not_or] at h
    simp only [Ctx.fill, Body.expand, exec, Ctx.after, ih h.1]
    cases hc : c.after fuel b (exec fuel b.expand (some t) y p) with
    | none => rfl
    | some o =>
      cases o with
      | next y1 p1 => rfl
      | returned r p1 => rfl
      | seeking => simp [exec_body_miss fuel b1 t y p h.2]
  | iteE e a c ih =>
    simp only [Ctx.lines, List.mem_append, not_or] at h
    simp only [Ctx.fill, Body.expand, exec, Ctx.after, exec_body_miss fuel a t y p h.1, ih h.2]
  | whileDo e c ih =>
    simp only [Ctx.lines] at h
    simp only [Ctx.fill, Body.expand, exec, Ctx.after, ih h]

end Basics

section Header

variable {σ : Type}

theorem exec_wait_until_run (fuel l : Nat) (c : σ → Option (Bool × σ)) (y : Bool)
    (p : Protothread σ) :
    exec fuel (Body.PT_WAIT_UNTIL l c).expand none y p =
      match c p.fields with
      | none => none
      | some (true, s1) => some (.next y ⟨l % LineNumberSize, s1⟩)
      | some (false, s1) => some (.returned true ⟨l % LineNumberSize, s1⟩) := by
  simp only [Body.expand, PT_WAIT_UNTIL, doWhile0, ifReturn, exec, Expr.eval]
  cases hc : c p.fields with
  | none => rfl
  | some v =>
    obtain ⟨v, s1⟩ := v
    cases v <;> rfl

theorem exec_wait_until_seek (fuel l t : Nat) (c : σ → Option (Bool × σ)) (y : Bool)
    (p : Protothread σ) :
    exec fuel (Body.PT_WAIT_UNTIL l c).expand (some t) y p =
      if l = t then
        match c p.fields with
        | none => none
        | some (true, s1) => some (.next y ⟨p._ptLine, s1⟩)
        | some (false, s1) => some (.returned true ⟨p._ptLine, s1⟩)
      else some .seeking := by
  simp only [Body.expand, PT_WAIT_UNTIL, doWhile0, ifReturn, exec, Expr.eval]
  by_cases h : l = t
  · simp only [h, if_true]
    cases hc : c p.fields with
    | none => rfl
    | some v =>
      obtain ⟨v, s1⟩ := v
      cases v <;> rfl
  · simp [h]

theorem exec_wait_while_run (fuel l : Nat) (c : σ → Option (Bool × σ)) (y : Bool)
    (p : Protothread σ) :
    exec fuel (Body.PT_WAIT_WHILE l c).expand none y p =
      match c p.fields with
      | none => none
      | some (true, s1) => some (.returned true ⟨l % LineNumberSize, s1⟩)
      | some (false, s1) => some (.next y ⟨l % LineNumberSize, s1⟩) := by
  simp only [Body.expand, PT_WAIT_WHILE, PT_WAIT_UNTIL, doWhile0, ifReturn, exec, Expr.eval]
  cases hc : c p.fields with
  | none => rfl
  | some v =>
    obtain ⟨v, s1⟩ := v
    cases v <;> rfl

theorem exec_wait_while_seek (fuel l t : Nat) (c : σ → Option (Bool × σ)) (y : Bool)
    (p : Protothread σ) :
    exec fuel (Body.PT_WAIT_WHILE l c).expand (some t) y p =
      if l = t then
        match c p.fields with
        | none => none
        | some (true, s1) => some (.returned true ⟨p._ptLine, s1⟩)
        | some (false, s1) => some (.next y ⟨p._ptLine, s1⟩)
      else some .seeking := by
  simp only [Body.expand, PT_WAIT_WHILE, PT_WAIT_UNTIL, doWhile0, ifReturn, exec, Expr.eval]
  by_cases h : l = t
  · simp only [h, if_true]
    cases hc : c p.fields with
    | none => rfl
    | some v =>
      obtain ⟨v, s1⟩ := v
      cases v <;> rfl
  · simp [h]

theorem exec_wait_thread_run (fuel l : Nat) (child : Child σ) (y : Bool) (p : Protothread σ) :
    exec fuel (Body.PT_WAIT_THREAD l child).expand none y p =
      match child.Run p.fields with
      | none => none
      | some (true, s1) => some (.returned true ⟨l % LineNumberSize, s1⟩)
      | some (false, s1) => some (.next y ⟨l % LineNumberSize, s1⟩) :=
  exec_wait_while_run fuel l child.Run y p

theorem exec_wait_thread_seek (fuel l t : Nat) (child : Child σ) (y : Bool)
    (p : Protothread σ) :
    exec fuel (Body.PT_WAIT_THREAD l child).expand (some t) y p =
      if l = t then
        match child.Run p.fields with
        | none => none
        | some (true, s1) => some (.returned true ⟨p._ptLine, s1⟩)
        | some (false, s1) => some (.next y ⟨p._ptLine, s1⟩)
      else some .seeking :=
  exec_wait_while_seek fuel l t child.Run y p

theorem exec_spawn_run (fuel l : Nat) (child : Child σ) (y : Bool) (p : Protothread σ) :
    exec fuel (Body.PT_SPAWN l child).expand none y p =
      match child.Run (child.Restart p.fields) with
      | none => none
      | some (true, s1) => some (.returned true ⟨l % LineNumberSize, s1⟩)
      | some (false, s1) => some (.next y ⟨l % LineNumberSize, s1⟩) := by
  simp only [Body.expand, PT_SPAWN, PT_WAIT_THREAD, PT_WAIT_WHILE, PT_WAIT_UNTIL, doWhile0,
    ifReturn, exec, Expr.eval]
  cases hc : child.Run (child.Restart p.fields) with
  | none => rfl
  | some v =>
    obtain ⟨v, s1⟩ := v
    cases v <;> rfl

theorem exec_spawn_seek (fuel l t : Nat) (child : Child σ) (y : Bool) (p : Protothread σ) :
    exec fuel (Body.PT_SPAWN l child).expand (some t) y p =
      if l = t then
        match child.Run p.fields with
        | none => none
        | some (true, s1) => some (.returned true ⟨p._ptLine, s1⟩)
        | some (false, s1) => some (.next y ⟨p._ptLine, s1⟩)
      else some .seeking := by
  simp only [Body.expand, PT_SPAWN, PT_WAIT_THREAD, PT_WAIT_WHILE, PT_WAIT_UNTIL, doWhile0,
    ifReturn, exec, Expr.eval]
  by_cases hl : l = t
  · simp only [hl, if_true]
    cases hc : child.Run p.fields with
    | none => rfl
    | some v =>
      obtain ⟨v, s1⟩ := v
      cases v <;> rfl
  · simp [hl]

theorem exec_restart_run (fuel : Nat) (y : Bool) (p : Protothread σ) :
    exec fuel (Body.PT_RESTART : Body σ).expand none y p = some (.returned true p.Restart) := by
  simp [Body.expand, PT_RESTART, doWhile0, exec]

theorem exec_exit_run (fuel : Nat) (y : Bool) (p : Protothread σ) :
    exec fuel (Body.PT_EXIT : Body σ).expand none y p = some (.returned false p.Stop) := by
  simp [Body.expand, PT_EXIT, doWhile0, exec]

theorem exec_yield_run (fuel l : Nat) (y : Bool) (p : Protothread σ) :
    exec fuel (Body.PT_YIELD l : Body σ).expand none y p
      = some (.returned true ⟨l % LineNumberSize, p.fields⟩) := by
  simp [Body.expand, PT_YIELD, doWhile0, ifReturn, exec, Expr.eval]

theorem exec_yield_seek (fuel l t : Nat) (y : Bool) (p : Protothread σ) :
    exec fuel (Body.PT_YIELD l : Body σ).expand (some t) y p =
      if l = t then (if y then some (.next y p) else some (.returned true p))
      else some .seeking := by
  simp only [Body.expand, PT_YIELD, doWhile0, ifReturn, exec, Expr.eval]
  by_cases h : l = t
  · cases y <;> simp [h, exec]
  · simp [h]

theorem exec_yield_until_run (fuel l : Nat) (c : σ → Option (Bool × σ)) (y : Bool)
    (p : Protothread σ) :
    exec fuel (Body.PT_YIELD_UNTIL l c).expand none y p
      = some (.returned true ⟨l % LineNumberSize, p.fields⟩) := by
  simp [Body.expand, PT_YIELD_UNTIL, doWhile0, ifReturn, exec, Expr.eval]

theorem exec_yield_until_seek (fuel l t : Nat) (c : σ → Option (Bool × σ)) (y : Bool)
    (p : Protothread σ) :
    exec fuel (Body.PT_YIELD_UNTIL l c).expand (some t) y p =
      if l = t then
        (if y then
          match c p.fields with
          | none => none
          | some (true, s1) => some (.next y ⟨p._ptLine, s1⟩)
          | some (false, s1) => some (.returned true ⟨p._ptLine, s1⟩)
        else some (.returned true p))
      else some .seeking := by
  simp only [Body.expand, PT_YIELD_UNTIL, doWhile0, ifReturn, exec, Expr.eval]
  by_cases h : l = t
  · cases y
    · simp [h, exec]
    · cases hc : c p.fields with
      | none => simp [h, hc]
      | some v =>
        obtain ⟨v, s1⟩ := v
        cases v <;> simp [h, hc, exec]
  · simp [h]

end Header

section Invariant

variable {σ : Type}

theorem IsRunning_mk (n : Nat) (s : σ) :
    (Protothread.IsRunning ⟨n, s⟩ = true) ↔ n ≠ LineNumberInvalid := by
  simp [Protothread.IsRunning]

theorem IsRunning_line {l : Nat} (h : l < LineNumberInvalid) (s : σ) :
    Protothread.IsRunning ⟨l % LineNumberSize, s⟩ = true := by
  rw [line_mod_of_lt h, IsRunning_mk]
  omega

theorem ne_invalid_of_stored {l : Nat} (h : l % LineNumberSize ≠ LineNumberInvalid) :
    l ≠ LineNumberInvalid := by
  intro e
  rw [e] at h
  exact h (by decide)

theorem IsRunning_stored {l : Nat} (h : l % LineNumberSize ≠ LineNumberInvalid) (s : σ) :
    Protothread.IsRunning ⟨l % LineNumberSize, s⟩ = true := by
  rw [IsRunning_mk]
  exact h

theorem IsRunning_Stop (p : Protothread σ) : p.Stop.IsRunning = false := by
  simp [Protothread.IsRunning, Protothread.Stop]

theorem IsRunning_Restart (p : Protothread σ) : p.Restart.IsRunning = true := by
  simp [Protothread.IsRunning, Protothread.Restart, LineNumberInvalid_eq]

/-- A loop returns what its statement returns. -/
theorem whileFrom_returned (e : Expr σ) (body : Bool → Protothread σ → Option (Outcome σ))
    (Q : Bool → Protothread σ → Prop)
    (hb : ∀ y p r p1, body y p = some (.returned r p1) → Q r p1) :
    ∀ (n : Nat) (y : Bool) (p : Protothread σ) (r : Bool) (p1 : Protothread σ),
      whileFrom e body n y p = some (.returned r p1) → Q r p1 := by
  intro n
  induction n with
  | zero => intro y p r p1 h; simp [whileFrom] at h
  | succ n ih =>
    intro y p r p1 h
    simp only [whileFrom] at h
    cases he : e.eval y p.fields with
    | none => simp [he] at h
    | some v =>
      obtain ⟨v, s1⟩ := v
      cases v with
      | false => simp [he] at h
      | true =>
        simp only [he] at h
        cases hbd : body y { p with fields := s1 } with
        | none => simp [hbd] at h
        | some o =>
          cases o with
          | next y2 p2 =>
            simp only [hbd] at h
            exact ih y2 p2 r p1 h
          | returned r2 p2 =>
            simp only [hbd, Option.some.injEq, Outcome.returned.injEq] at h
            obtain ⟨rfl, rfl⟩ := h
            exact hb y _ _ _ hbd
          | seeking => simp [hbd] at h

/-- Whenever a statement of a body returns, the value returned tells whether the position left
in `_ptLine` differs from `LineNumberInvalid`.  In the second part control is being transferred
to the label equal to `_ptLine`. -/
theorem exec_returned (fuel : Nat) (b : Body σ) (hv : ∀ l ∈ b.lines, l % LineNumberSize ≠ LineNumberInvalid) :
    (∀ y p r p1, exec fuel b.expand none y p = some (.returned r p1) → r = p1.IsRunning) ∧
    (∀ y p r p1, exec fuel b.expand (some p._ptLine) y p = some (.returned r p1) →
      r = p1.IsRunning) := by
  induction b with
  | skip => constructor <;> intro y p r p1 h <;> simp [Body.expand, exec] at h
  | stmt f => constructor <;> intro y p r p1 h <;> simp [Body.expand, exec] at h
  | Stop => constructor <;> intro y p r p1 h <;> simp [Body.expand, exec] at h
  | Restart => constructor <;> intro y p r p1 h <;> simp [Body.expand, exec] at h
  | PT_WAIT_UNTIL l c =>
    have hl := hv l (by simp [Body.lines])
    constructor
    · intro y p r p1 h
      rw [exec_wait_until_run] at h
      split at h <;> simp at h
      obtain ⟨rfl, rfl⟩ := h
      exact (IsRunning_stored hl _).symm
    · intro y p r p1 h
      rw [exec_wait_until_seek] at h
      split at h
      · rename_i hlt
        split at h <;> simp at h
        obtain ⟨rfl, rfl⟩ := h
        symm
        rw [IsRunning_mk, ← hlt]
        exact ne_invalid_of_stored hl
      · simp at h
  | PT_WAIT_WHILE l c =>
    have hl := hv l (by simp [Body.lines])
    constructor
    · intro y p r p1 h
      rw [exec_wait_while_run] at h
      split at h <;> simp at h
      obtain ⟨rfl, rfl⟩ := h
      exact (IsRunning_stored hl _).symm
    · intro y p r p1 h
      rw [exec_wait_while_seek] at h
      split at h
      · rename_i hlt
        split at h <;> simp at h
        obtain ⟨rfl, rfl⟩ := h
        symm
        rw [IsRunning_mk, ← hlt]
        exact ne_invalid_of_stored hl
      · simp at h
  | PT_WAIT_THREAD l child =>
    have hl := hv l (by simp [Body.lines])
    constructor
    · intro y p r p1 h
      rw [exec_wait_thread_run] at h
      split at h <;> simp at h
      obtain ⟨rfl, rfl⟩ := h
      exact (IsRunning_stored hl _).symm
    · intro y p r p1 h
      rw [exec_wait_thread_seek] at h
      split at h
      · rename_i hlt
        split at h <;> simp at h
        obtain ⟨rfl, rfl⟩ := h
        symm
        rw [IsRunning_mk, ← hlt]
        exact ne_invalid_of_stored hl
      · simp at h
  | PT_SPAWN l child =>
    have hl := hv l (by simp [Body.lines])
    constructor
    · intro y p r p1 h
      rw [exec_spawn_run] at h
      split at h <;> simp at h
      obtain ⟨rfl, rfl⟩ := h
      exact (IsRunning_stored hl _).symm
    · intro y p r p1 h
      rw [exec_spawn_seek] at h
      split at h
      · rename_i hlt
        split at h <;> simp at h
        obtain ⟨rfl, rfl⟩ := h
        symm
        rw [IsRunning_mk, ← hlt]
        exact ne_invalid_of_stored hl
      · simp at h
  | PT_RESTART =>
    constructor
    · intro y p r p1 h
      rw [exec_restart_run] at h
      simp only [Option.some.injEq, Outcome.returned.injEq] at h
      obtain ⟨rfl, rfl⟩ := h
      exact (IsRunning_Restart p).symm
    · intro y p r p1 h
      simp [Body.expand, PT_RESTART, doWhile0, exec] at h
  | PT_EXIT =>
    constructor
    · intro y p r p1 h
      rw [exec_exit_run] at h
      simp only [Option.some.injEq, Outcome.returned.injEq] at h
      obtain ⟨rfl, rfl⟩ := h
      exact (IsRunning_Stop p).symm
    · intro y p r p1 h
      simp [Body.expand, PT_EXIT, doWhile0, exec] at h
  | PT_YIELD l =>
    have hl := hv l (by simp [Body.lines])
    constructor
    · intro y p r p1 h
      rw [exec_yield_run] at h
      simp only [Option.some.injEq, Outcome.returned.injEq] at h
      obtain ⟨rfl, rfl⟩ := h
      exact (IsRunning_stored hl _).symm
    · intro y p r p1 h
      rw [exec_yield_seek] at h
      split at h
      · rename_i hlt
        split at h <;> simp at h
        obtain ⟨rfl, rfl⟩ := h
        symm
        obtain ⟨n, s⟩ := p
        rw [IsRunning_mk]
        simp only at hlt
        rw [← hlt]
        exact ne_invalid_of_stored hl
      · simp at h
  | PT_YIELD_UNTIL l c =>
    have hl := hv l (by simp [Body.lines])
    constructor
    · intro y p r p1 h
      rw [exec_yield_until_run] at h
      simp only [Option.some.injEq, Outcome.returned.injEq] at h
      obtain ⟨rfl, rfl⟩ := h
      exact (IsRunning_stored hl _).symm
    · intro y p r p1 h
      rw [exec_yield_until_seek] at h
      split at h
      · rename_i hlt
        split at h
        · split at h <;> simp at h
          obtain ⟨rfl, rfl⟩ := h
          symm
          rw [IsRunning_mk, ← hlt]
          exact ne_invalid_of_stored hl
        · simp at h
          obtain ⟨rfl, rfl⟩ := h
          symm
          obtain ⟨n, s⟩ := p
          rw [IsRunning_mk]
          simp only at hlt
          rw [← hlt]
          exact ne_invalid_of_stored hl
      · simp at h
  | seq a b iha ihb =>
    have ha := iha (fun l hl => hv l (by simp [Body.lines, hl]))
    have hb := ihb (fun l hl => hv l (by simp [Body.lines, hl]))
    constructor
    · intro y p r p1 h
      simp only [Body.expand, exec] at h
      cases hx : exec fuel a.expand none y p with
      | none => simp [hx] at h
      | some o =>
        cases o with
        | next y1 p2 => simp only [hx] at h; exact hb.1 _ _ _ _ h
        | returned r2 p2 =>
          simp only [hx, Option.some.injEq, Outcome.returned.injEq] at h
          obtain ⟨rfl, rfl⟩ := h
          exact ha.1 _ _ _ _ hx
        | seeking => simp [hx] at h
    · intro y p r p1 h
      simp only [Body.expand, exec] at h
      cases hx : exec fuel a.expand (some p._ptLine) y p with
      | none => simp [hx] at h
      | some o =>
        cases o with
        | next y1 p2 => simp only [hx] at h; exact hb.1 _ _ _ _ h
        | returned r2 p2 =>
          simp only [hx, Option.some.injEq, Outcome.returned.injEq] at h
          obtain ⟨rfl, rfl⟩ := h
          exact ha.2 _ _ _ _ hx
        | seeking => simp only [hx] at h; exact hb.2 _ _ _ _ h
  | ite c a b iha ihb =>
    have ha := iha (fun l hl => hv l (by simp [Body.lines, hl]))
    have hb := ihb (fun l hl => hv l (by simp [Body.lines, hl]))
    constructor
    · intro y p r p1 h
      simp only [Body.expand, exec, Expr.eval] at h
      cases hc : c p.fields with
      | none => simp [hc] at h
      | some v =>
        obtain ⟨v, s1⟩ := v
        cases v with
        | true => simp only [hc] at h; exact ha.1 _ _ _ _ h
        | false => simp only [hc] at h; exact hb.1 _ _ _ _ h
    · intro y p r p1 h
      simp only [Body.expand, exec] at h
      cases hx : exec fuel a.expand (some p._ptLine) y p with
      | none => simp [hx] at h
      | some o =>
        cases o with
        | next y1 p2 => simp [hx] at h
        | returned r2 p2 =>
          simp only [hx, Option.some.injEq, Outcome.returned.injEq] at h
          obtain ⟨rfl, rfl⟩ := h
          exact ha.2 _ _ _ _ hx
        | seeking => simp only [hx] at h; exact hb.2 _ _ _ _ h
  | whileDo c s ih =>
    have hs := ih (fun l hl => hv l (by simp [Body.lines, hl]))
    have hw := whileFrom_returned (.member c) (fun y1 p1 => exec fuel s.expand none y1 p1)
      (fun r p1 => r = p1.IsRunning) (fun y p r p1 h => hs.1 y p r p1 h)
    constructor
    · intro y p r p1 h
      simp only [Body.expand, exec] at h
      exact hw _ _ _ _ _ h
    · intro y p r p1 h
      simp only [Body.expand, exec] at h
      cases hx : exec fuel s.expand (some p._ptLine) y p with
      | none => simp [hx] at h
      | some o =>
        cases o with
        | next y1 p2 => simp only [hx] at h; exact hw _ _ _ _ _ h
        | returned r2 p2 =>
          simp only [hx, Option.some.injEq, Outcome.returned.injEq] at h
          obtain ⟨rfl, rfl⟩ := h
          exact hs.2 _ _ _ _ hx
        | seeking => simp [hx] at h

/-- Whenever a statement of a body returns false, it has just set the position to
`LineNumberInvalid`: false is returned by `PT_EXIT` only. -/
theorem exec_returned_false (fuel : Nat) (b : Body σ) :
    ∀ (m : Option Nat) (y : Bool) (p p1 : Protothread σ),
      exec fuel b.expand m y p = some (.returned false p1) →
      p1._ptLine = LineNumberInvalid := by
  induction b with
  | skip => intro m y p p1 h; cases m <;> simp [Body.expand, exec] at h
  | stmt f => intro m y p p1 h; cases m <;> simp [Body.expand, exec] at h
  | Stop => intro m y p p1 h; cases m <;> simp [Body.expand, exec] at h
  | Restart => intro m y p p1 h; cases m <;> simp [Body.expand, exec] at h
  | PT_WAIT_UNTIL l c =>
    intro m y p p1 h
    cases m with
    | none => rw [exec_wait_until_run] at h; split at h <;> simp at h
    | some t =>
      rw [exec_wait_until_seek] at h
      split at h
      · split at h <;> simp at h
      · simp at h
  | PT_WAIT_WHILE l c =>
    intro m y p p1 h
    cases m with
    | none => rw [exec_wait_while_run] at h; split at h <;> simp at h
    | some t =>
      rw [exec_wait_while_seek] at h
      split at h
      · split at h <;> simp at h
      · simp at h
  | PT_WAIT_THREAD l child =>
    intro m y p p1 h
    cases m with
    | none => rw [exec_wait_thread_run] at h; split at h <;> simp at h
    | some t =>
      rw [exec_wait_thread_seek] at h
      split at h
      · split at h <;> simp at h
      · simp at h
  | PT_SPAWN l child =>
    intro m y p p1 h
    cases m with
    | none => rw [exec_spawn_run] at h; split at h <;> simp at h
    | some t =>
      rw [exec_spawn_seek] at h
      split at h
      · split at h <;> simp at h
      · simp at h
  | PT_RESTART =>
    intro m y p p1 h
    cases m with
    | none => rw [exec_restart_run] at h; simp at h
    | some t => simp [Body.expand, PT_RESTART, doWhile0, exec] at h
  | PT_EXIT =>
    intro m y p p1 h
    cases m with
    | none =>
      rw [exec_exit_run] at h
      simp only [Option.some.injEq, Outcome.returned.injEq, true_and] at h
      subst h
      rfl
    | some t => simp [Body.expand, PT_EXIT, doWhile0, exec] at h
  | PT_YIELD l =>
    intro m y p p1 h
    cases m with
    | none => rw [exec_yield_run] at h; simp at h
    | some t =>
      rw [exec_yield_seek] at h
      split at h
      · split at h <;> simp at h
      · simp at h
  | PT_YIELD_UNTIL l c =>
    intro m y p p1 h
    cases m with
    | none => rw [exec_yield_until_run] at h; simp at h
    | some t =>
      rw [exec_yield_until_seek] at h
      split at h
      · split at h
        · split at h <;> simp at h
        · simp at h
      · simp at h
  | seq a b iha ihb =>
    intro m y p p1 h
    cases m with
    | none =>
      simp only [Body.expand, exec] at h
      cases hx : exec fuel a.expand none y p with
      | none => simp [hx] at h
      | some o =>
        cases o with
        | next y1 p2 => simp only [hx] at h; exact ihb _ _ _ _ h
        | returned r2 p2 =>
          simp only [hx, Option.some.injEq, Outcome.returned.injEq] at h
          obtain ⟨rfl, rfl⟩ := h
          exact iha _ _ _ _ hx
        | seeking => simp [hx] at h
    | some t =>
      simp only [Body.expand, exec] at h
      cases hx : exec fuel a.expand (some t) y p with
      | none => simp [hx] at h
      | some o =>
        cases o with
        | next y1 p2 => simp only [hx] at h; exact ihb _ _ _ _ h
        | returned r2 p2 =>
          simp only [hx, Option.some.injEq, Outcome.returned.injEq] at h
          obtain ⟨rfl, rfl⟩ := h
          exact iha _ _ _ _ hx
        | seeking => simp only [hx] at h; exact ihb _ _ _ _ h
  | ite c a b iha ihb =>
    intro m y p p1 h
    cases m with
    | none =>
      simp only [Body.expand, exec, Expr.eval] at h
      cases hc : c p.fields with
      | none => simp [hc] at h
      | some v =>
        obtain ⟨v, s1⟩ := v
        cases v with
        | true => simp only [hc] at h; exact iha _ _ _ _ h
        | false => simp only [hc] at h; exact ihb _ _ _ _ h
    | some t =>
      simp only [Body.expand, exec] at h
      cases hx : exec fuel a.expand (some t) y p with
      | none => simp [hx] at h
      | some o =>
        cases o with
        | next y1 p2 => simp [hx] at h
        | returned r2 p2 =>
          simp only [hx, Option.some.injEq, Outcome.returned.injEq] at h
          obtain ⟨rfl, rfl⟩ := h
          exact iha _ _ _ _ hx
        | seeking => simp only [hx] at h; exact ihb _ _ _ _ h
  | whileDo c s ih =>
    have hw := whileFrom_returned (.member c) (fun y1 p1 => exec fuel s.expand none y1 p1)
      (fun r p1 => r = false → p1._ptLine = LineNumberInvalid)
      (fun y p r p1 h hr => by subst hr; exact ih none y p p1 h)
    intro m y p p1 h
    cases m with
    | none =>
      simp only [Body.expand, exec] at h
      exact hw _ _ _ _ _ h rfl
    | some t =>
      simp only [Body.expand, exec] at h
      cases hx : exec fuel s.expand (some t) y p with
      | none => simp [hx] at h
      | some o =>
        cases o with
        | next y1 p2 => simp only [hx] at h; exact hw _ _ _ _ _ h rfl
        | returned r2 p2 =>
          simp only [hx, Option.some.injEq, Outcome.returned.injEq] at h
          obtain ⟨rfl, rfl⟩ := h
          exact ih _ _ _ _ hx
        | seeking => simp [hx] at h


end Invariant

section Terminated

variable {σ : Type}

theorem invalid_not_mem_lines {body : Body σ} (hwf : body.WellFormed) :
    LineNumberInvalid ∉ body.lines := fun h => Nat.lt_irrefl _ (hwf.2 _ h).2

/-- With `_ptLine = LineNumberInvalid` the `switch` goes to `default:`. -/
theorem Run_of_invalid (fuel : Nat) (body : Body σ) (h65 : LineNumberInvalid ∉ body.lines)
    (q : Protothread σ) (hq : q._ptLine = LineNumberInvalid) :
    body.Run fuel q = some (false, q) := by
  have hmiss := exec_body_miss fuel body LineNumberInvalid true q h65
  obtain ⟨n, s⟩ := q
  simp only at hq
  subst hq
  simp only [Body.Run, Protothread.Run, PT_BEGIN, exec, hmiss]
  simp [LineNumberInvalid_eq, PT_END, Protothread.Stop]

theorem RunEach_of_invalid (fuel : Nat) (body : Body σ)
    (h65 : LineNumberInvalid ∉ body.lines) :
    ∀ (es : List (σ → σ)) (s : σ),
      RunEach fuel body es ⟨LineNumberInvalid, s⟩
        = some (List.replicate es.length false, ⟨LineNumberInvalid, envOnly es s⟩) := by
  intro es
  induction es with
  | nil => intro s; rfl
  | cons e es ih =>
    intro s
    simp only [RunEach, Run_of_invalid fuel body h65 ⟨LineNumberInvalid, e s⟩ rfl, ih (e s)]
    simp [envOnly, List.replicate_succ]

theorem Run_returns (fuel : Nat) (body : Body σ)
    (hv : ∀ l ∈ body.lines, l % LineNumberSize ≠ LineNumberInvalid)
    (p : Protothread σ) (r : Bool) (p1 : Protothread σ) (h : body.Run fuel p = some (r, p1)) :
    r = p1.IsRunning := by
  have hinv := exec_returned fuel body hv
  simp only [Body.Run, Protothread.Run, PT_BEGIN, exec] at h
  by_cases h0 : 0 = p._ptLine
  · simp only [h0, if_true] at h
    cases hx : exec fuel body.expand none true p with
    | none => simp [hx, PT_END] at h
    | some o =>
      cases o with
      | next y1 p2 =>
        simp only [hx, PT_END, Option.some.injEq, Prod.mk.injEq] at h
        obtain ⟨rfl, rfl⟩ := h
        exact (IsRunning_Stop p2).symm
      | returned r2 p2 =>
        simp only [hx, PT_END, Option.some.injEq, Prod.mk.injEq] at h
        obtain ⟨rfl, rfl⟩ := h
        exact hinv.1 _ _ _ _ hx
      | seeking =>
        simp only [hx, PT_END, Option.some.injEq, Prod.mk.injEq] at h
        obtain ⟨rfl, rfl⟩ := h
        exact (IsRunning_Stop p).symm
  · simp only [h0, if_false] at h
    cases hx : exec fuel body.expand (some p._ptLine) true p with
    | none => simp [hx, PT_END] at h
    | some o =>
      cases o with
      | next y1 p2 =>
        simp only [hx, PT_END, Option.some.injEq, Prod.mk.injEq] at h
        obtain ⟨rfl, rfl⟩ := h
        exact (IsRunning_Stop p2).symm
      | returned r2 p2 =>
        simp only [hx, PT_END, Option.some.injEq, Prod.mk.injEq] at h
        obtain ⟨rfl, rfl⟩ := h
        exact hinv.2 _ _ _ _ hx
      | seeking =>
        simp only [hx, PT_END, Option.some.injEq, Prod.mk.injEq] at h
        obtain ⟨rfl, rfl⟩ := h
        exact (IsRunning_Stop p).symm

/-- A call of `Run()` that returns false leaves the position `LineNumberInvalid`. -/
theorem Run_false_invalid (fuel : Nat) (body : Body σ) (p p1 : Protothread σ)
    (h : body.Run fuel p = some (false, p1)) : p1._ptLine = LineNumberInvalid := by
  simp only [Body.Run, Protothread.Run, PT_BEGIN, exec] at h
  by_cases h0 : 0 = p._ptLine
  · simp only [h0, if_true] at h
    cases hx : exec fuel body.expand none true p with
    | none => simp [hx, PT_END] at h
    | some o =>
      cases o with
      | next y1 p2 =>
        simp only [hx, PT_END, Option.some.injEq, Prod.mk.injEq, true_and] at h
        subst h
        rfl
      | returned r2 p2 =>
        simp only [hx, PT_END, Option.some.injEq, Prod.mk.injEq] at h
        obtain ⟨rfl, rfl⟩ := h
        exact exec_returned_false fuel body _ _ _ _ hx
      | seeking =>
        simp only [hx, PT_END, Option.some.injEq, Prod.mk.injEq, true_and] at h
        subst h
        rfl
  · simp only [h0, if_false] at h
    cases hx : exec fuel body.expand (some p._ptLine) true p with
    | none => simp [hx, PT_END] at h
    | some o =>
      cases o with
      | next y1 p2 =>
        simp only [hx, PT_END, Option.some.injEq, Prod.mk.injEq, true_and] at h
        subst h
        rfl
      | returned r2 p2 =>
        simp only [hx, PT_END, Option.some.injEq, Prod.mk.injEq] at h
        obtain ⟨rfl, rfl⟩ := h
        exact exec_returned_false fuel body _ _ _ _ hx
      | seeking =>
        simp only [hx, PT_END, Option.some.injEq, Prod.mk.injEq, true_and] at h
        subst h
        rfl

end Terminated

/-! ## C1: a protothread that has ended stays ended -/

/-- C1, as stated, fails for a body with a suspension point on line 65535.  The body is
`PT_WAIT_UNTIL(flag);` written on line 65535 and the object is new.  With the flag set, the
first call of `Run()` runs through the wait to `PT_END` and returns false.  The position is then
`LineNumberInvalid = 65535`, which is the label `case 65535:` of the wait: the second and the
third call, the flag being cleared, enter the body there, evaluate the flag and return
true. -/
theorem ended_resumes_on_line_65535 :
    RunEach 0 waitOnLine65535 [fun _ => true, fun _ => false, fun _ => false]
        (Protothread.construct false)
      = some ([false, true, true], ⟨LineNumberInvalid, false⟩) := by
  decide

/-- C1, amended.  Let `body` be any body with no suspension point written on line 65535, and
let a call of `Run()` on the object `p` return false, leaving the object `p1`.  Then
`IsRunning()` is false, and for every number of later calls of `Run()`, whatever the
environment does to the fields before each of them (so for any values of the conditions),
every call returns false, `_ptLine` is still `LineNumberInvalid` after the last one, and the
fields are exactly what the environment made of them: no statement of the body was executed
and no condition evaluated.  The driver `RunEach` never calls `Restart()`; a call of
`Restart()` makes `IsRunning()` true again. -/
theorem ended_stays_ended {σ : Type} (fuel : Nat) (body : Body σ)
    (h65 : LineNumberInvalid ∉ body.lines)
    (p p1 : Protothread σ) (h : body.Run fuel p = some (false, p1)) :
    p1.IsRunning = false ∧ p1._ptLine = LineNumberInvalid ∧
    ∀ (fuel2 : Nat) (es : List (σ → σ)),
      RunEach fuel2 body es p1
          = some (List.replicate es.length false, ⟨LineNumberInvalid, envOnly es p1.fields⟩) ∧
        Protothread.IsRunning ⟨LineNumberInvalid, envOnly es p1.fields⟩ = false ∧
        (Protothread.Restart ⟨LineNumberInvalid, envOnly es p1.fields⟩).IsRunning = true := by
  have hpos : p1._ptLine = LineNumberInvalid := Run_false_invalid fuel body p p1 h
  have hr : p1.IsRunning = false := by simp [Protothread.IsRunning, hpos]
  refine ⟨hr, hpos, fun fuel2 es => ⟨?_, by simp [Protothread.IsRunning], IsRunning_Restart _⟩⟩
  obtain ⟨n, s⟩ := p1
  simp only at hpos
  subst hpos
  exact RunEach_of_invalid fuel2 body h65 es s

/-- Witness of C1 (amended): the body `sampleWait` ends on its first call when the flag is
set; three further calls, the flag being cleared and set again in between, return false and
change nothing. -/
theorem ended_stays_ended_witness :
    LineNumberInvalid ∉ sampleWait.lines ∧
    sampleWait.Run 0 ⟨0, (true, 0)⟩ = some (false, ⟨LineNumberInvalid, (true, 11)⟩) ∧
    RunEach 0 sampleWait [fun s => (false, s.2), fun s => (true, s.2), id]
        ⟨LineNumberInvalid, (true, 11)⟩
      = some ([false, false, false], ⟨LineNumberInvalid, (true, 11)⟩) :=
  ⟨by decide, by decide,
    ((ended_stays_ended 0 sampleWait (by decide) ⟨0, (true, 0)⟩
      ⟨LineNumberInvalid, (true, 11)⟩ (by decide)).2.2 0
      [fun s => (false, s.2), fun s => (true, s.2), id]).1⟩

section Places

variable {σ : Type}

theorem lines_fill (c : Ctx σ) (b : Body σ) : ((c.fill b).lines).Perm (b.lines ++ c.lines) := by
  induction c with
  | hole => simp [Ctx.fill, Ctx.lines]
  | seqL c b1 ih =>
    simp only [Ctx.fill, Body.lines, Ctx.lines]
    rw [← List.append_assoc]
    exact List.Perm.append_right _ ih
  | seqR a c ih =>
    simp only [Ctx.fill, Body.lines, Ctx.lines]
    exact (List.Perm.append_left a.lines ih).trans (by
      rw [← List.append_assoc, ← List.append_assoc]
      exact List.Perm.append_right _ List.perm_append_comm)
  | iteT e c b1 ih =>
    simp only [Ctx.fill, Body.lines, Ctx.lines]
    rw [← List.append_assoc]
    exact List.Perm.append_right _ ih
  | iteE e a c ih =>
    simp only [Ctx.fill, Body.lines, Ctx.lines]
    exact (List.Perm.append_left a.lines ih).trans (by
      rw [← List.append_assoc, ← List.append_assoc]
      exact List.Perm.append_right _ List.perm_append_comm)
  | whileDo e c ih =>
    simp only [Ctx.fill, Body.lines, Ctx.lines]
    exact ih

/-- In a well-formed body, the line of a suspension point written at a place is a line from 1
to 65534 and no other suspension point of the body stands on it. -/
theorem wf_at_place {c : Ctx σ} {b : Body σ} (hwf : (c.fill b).WellFormed) {l : Nat}
    (hl : l ∈ b.lines) : l ∉ c.lines ∧ 0 < l ∧ l < LineNumberInvalid := by
  have hperm := lines_fill c b
  have hnd : (b.lines ++ c.lines).Nodup := hperm.nodup_iff.mp hwf.1
  refine ⟨fun hc => List.disjoint_of_nodup_append hnd hl hc, ?_⟩
  exact hwf.2 l (hperm.mem_iff.mpr (List.mem_append.mpr (Or.inl hl)))

/-- A call of `Run()` with `_ptLine` equal to a line that is nonzero and is not the line of a
suspension point of the text around the place: control is transferred into the statement at
the place. -/
theorem Run_at_place (fuel : Nat) (c : Ctx σ) (b : Body σ) (p : Protothread σ)
    (h0 : 0 < p._ptLine) (hc : p._ptLine ∉ c.lines) :
    (c.fill b).Run fuel p
      = PT_END p (c.after fuel b (exec fuel b.expand (some p._ptLine) true p)) := by
  have hne : ¬ (0 = p._ptLine) := by omega
  simp only [Body.Run, Protothread.Run, PT_BEGIN, exec, hne, if_false,
    exec_seek_in_ctx fuel b c p._ptLine true p hc]

/-- A call of `Run()` with `_ptLine = 0` executes the body from its first statement. -/
theorem Run_of_zero (fuel : Nat) (body : Body σ) (p : Protothread σ) (h0 : p._ptLine = 0) :
    body.Run fuel p = PT_END p (exec fuel body.expand none true p) := by
  simp only [Body.Run, Protothread.Run, PT_BEGIN, exec, h0, if_true]

end Places

section Sequences

variable {σ : Type}

theorem exec_seq_run (fuel : Nat) (a b : Body σ) (y : Bool) (p : Protothread σ) :
    exec fuel (Body.seq a b).expand none y p =
      match exec fuel a.expand none y p with
      | some (.next y1 p1) => exec fuel b.expand none y1 p1
      | o => o := rfl

theorem exec_seq_seek (fuel : Nat) (a b : Body σ) (t : Nat) (y : Bool) (p : Protothread σ) :
    exec fuel (Body.seq a b).expand (some t) y p =
      match exec fuel a.expand (some t) y p with
      | some .seeking => exec fuel b.expand (some t) y p
      | some (.next y1 p1) => exec fuel b.expand none y1 p1
      | o => o := rfl

/-- A call of `Run()` with a nonzero `_ptLine`: control is transferred to the label equal to
`_ptLine`. -/
theorem Run_of_pos (fuel : Nat) (body : Body σ) (p : Protothread σ) (h0 : 0 < p._ptLine) :
    body.Run fuel p = PT_END p (exec fuel body.expand (some p._ptLine) true p) :=
  Run_at_place fuel .hole body p h0 (by simp [Ctx.lines])

end Sequences

/-! ## C2: construction and `Restart()` -/

/-- C2.  For every body, all fields `s` and every object `p`, whatever its position: right
after construction and right after `Restart()` the position is 0 and `IsRunning()` is true;
the next call of `Run()` is the execution of the body from its first statement (`exec` with no
label to go to), followed by `PT_END`; it does not depend on the position `p` had before
`Restart()`; and when the body begins with a statement `f` of the subclass, that statement is
executed first. -/
theorem fresh_runs_from_start {σ : Type} (fuel : Nat) (body : Body σ) (s : σ)
    (p : Protothread σ) :
    (Protothread.construct s).IsRunning = true ∧ (Protothread.construct s)._ptLine = 0 ∧
    p.Restart.IsRunning = true ∧ p.Restart._ptLine = 0 ∧
    body.Run fuel (Protothread.construct s)
      = PT_END (Protothread.construct s)
          (exec fuel body.expand none true (Protothread.construct s)) ∧
    body.Run fuel p.Restart = PT_END p.Restart (exec fuel body.expand none true p.Restart) ∧
    body.Run fuel p.Restart = body.Run fuel (Protothread.construct p.fields) ∧
    ∀ (f : σ → σ) (rest : Body σ),
      (Body.seq (.stmt f) rest).Run fuel p.Restart
        = PT_END p.Restart (exec fuel rest.expand none true ⟨0, f p.fields⟩) := by
  refine ⟨IsRunning_Restart ⟨0, s⟩, rfl, IsRunning_Restart p, rfl,
    Run_of_zero fuel body _ rfl, Run_of_zero fuel body _ rfl, rfl, ?_⟩
  intro f rest
  rw [Run_of_zero fuel _ _ rfl]
  simp [Body.expand, exec, Protothread.Restart]

/-! ## C3: `PT_WAIT_UNTIL` -/

/-- C3, as stated, fails for a wait written on line 65536.  The body is
`count += 1; PT_WAIT_UNTIL(flag);` with the wait on line 65536, the object is new and the flag
stays false.  The wait stores `65536 % 65536 = 0` in `_ptLine`, so each of the three calls of
`Run()` enters the body at `case 0:`, executes `count += 1` again and returns true: the
position left is 0, not a value that leads back to the wait, and the statement before the wait
has been executed three times. -/
theorem wait_on_line_65536_restarts :
    RunEach 0 waitOnLine65536 [id, id, id] (Protothread.construct (false, 0))
      = some ([true, true, true], ⟨0, (false, 3)⟩) := by
  decide

/-- C3, amended. Let `PT_WAIT_UNTIL(cond)` stand at any place `c` of a body made of plain
statements, sequences, `if`/`else`, `while` loops and `PT_*` statements (no `switch` statement of
the body's own encloses the place), on a line `l` from 1 to 65535 on which no other suspension
point of the body stands.

* Position: the value stored by `_ptLine = __LINE__` is `l`.
* Reached with `cond` false (control arrives at the statement with any value `y` of
  `ptYielded` and any object `p`): the statement returns true with position `l`, the fields
  being those left by the one evaluation of `cond`; nothing of what comes after the place is
  executed, and `Run()` returns true.
* Resumed with `cond` false (a call of `Run()` with position `l`): `Run()` returns true, the
  position is still `l`, and the fields are those left by one evaluation of `cond` on the
  fields at entry: `cond` was evaluated first and no statement before or after the point was
  executed.  So the next call resumes here again.
* Resumed, or reached, with `cond` true: the call goes on with what comes after the place,
  from the fields left by the evaluation of `cond`.
* In particular, for a body `pre W post` called with position 0, `W` being the wait (on a line
  `l` as above): when `pre` runs to its end and `cond` is then false, `Run()` returns true with
  position `l` and the fields left by `pre` and one evaluation of `cond`; `post` has no
  effect. -/
theorem wait_until_point {σ : Type} (fuel : Nat) (c : Ctx σ) (l : Nat)
    (cond : σ → Option (Bool × σ)) (h0 : 0 < l) (hl : l < LineNumberSize)
    (hc : l ∉ c.lines) :
    l % LineNumberSize = l ∧
    (∀ (y : Bool) (p p0 : Protothread σ) (s1 : σ), cond p.fields = some (false, s1) →
      exec fuel (Body.PT_WAIT_UNTIL l cond).expand none y p = some (.returned true ⟨l, s1⟩) ∧
      c.after fuel (.PT_WAIT_UNTIL l cond)
          (exec fuel (Body.PT_WAIT_UNTIL l cond).expand none y p)
        = some (.returned true ⟨l, s1⟩) ∧
      PT_END p0 (c.after fuel (.PT_WAIT_UNTIL l cond)
          (exec fuel (Body.PT_WAIT_UNTIL l cond).expand none y p)) = some (true, ⟨l, s1⟩)) ∧
    (∀ (p : Protothread σ) (s1 : σ), p._ptLine = l → cond p.fields = some (false, s1) →
      (c.fill (.PT_WAIT_UNTIL l cond)).Run fuel p = some (true, ⟨l, s1⟩)) ∧
    (∀ (p : Protothread σ) (s1 : σ), p._ptLine = l → cond p.fields = some (true, s1) →
      (c.fill (.PT_WAIT_UNTIL l cond)).Run fuel p
        = PT_END p (c.after fuel (.PT_WAIT_UNTIL l cond) (some (.next true ⟨l, s1⟩)))) ∧
    (∀ (y : Bool) (p : Protothread σ) (s1 : σ), cond p.fields = some (true, s1) →
      c.after fuel (.PT_WAIT_UNTIL l cond)
          (exec fuel (Body.PT_WAIT_UNTIL l cond).expand none y p)
        = c.after fuel (.PT_WAIT_UNTIL l cond) (some (.next y ⟨l, s1⟩))) ∧
    (∀ (pre post : Body σ) (p : Protothread σ) (y1 : Bool) (p1 : Protothread σ) (s1 : σ),
      p._ptLine = 0 → exec fuel pre.expand none true p = some (.next y1 p1) →
      cond p1.fields = some (false, s1) →
      (Body.seq pre (.seq (.PT_WAIT_UNTIL l cond) post)).Run fuel p
        = some (true, ⟨l, s1⟩)) := by
  have hmod := line_mod_of_lt_size hl
  refine ⟨hmod, ?_, ?_, ?_, ?_, ?_⟩
  · intro y p p0 s1 hcond
    have hx : exec fuel (Body.PT_WAIT_UNTIL l cond).expand none y p
        = some (.returned true ⟨l, s1⟩) := by
      rw [exec_wait_until_run, hcond, hmod]
    refine ⟨hx, ?_, ?_⟩
    · rw [hx, after_returned]
    · rw [hx, after_returned]; rfl
  · intro p s1 hp hcond
    subst hp
    rw [Run_at_place fuel c _ p h0 hc, exec_wait_until_seek, if_pos rfl, hcond]
    simp only [after_returned]
    rfl
  · intro p s1 hp hcond
    subst hp
    rw [Run_at_place fuel c _ p h0 hc, exec_wait_until_seek, if_pos rfl, hcond]
  · intro y p s1 hcond
    rw [exec_wait_until_run, hcond, hmod]
  · intro pre post p y1 p1 s1 hp hpre hcond
    rw [Run_of_zero fuel _ _ hp, exec_seq_run, hpre]
    simp only []
    rw [exec_seq_run, exec_wait_until_run, hcond, hmod]
    rfl

/-- Witness of C3 (amended): the wait stands on line 12 inside a conditional inside a loop
(`samplePlace`).  A call that resumes there with the flag cleared returns true and changes
nothing; a call that resumes there with the flag set goes on after the wait and ends the body;
and in `sampleWait`, called from the start with the flag cleared, the wait on line 7 is
reached after `count += 1` and `Run()` returns true there. -/
theorem wait_until_point_witness :
    0 < 12 ∧ 12 < LineNumberSize ∧ 12 ∉ samplePlace.lines ∧
    (samplePlace.fill (.PT_WAIT_UNTIL 12 fun s => some (s.1, s))).Run 5 ⟨12, (false, true, 0)⟩
      = some (true, ⟨12, (false, true, 0)⟩) ∧
    (samplePlace.fill (.PT_WAIT_UNTIL 12 fun s => some (s.1, s))).Run 5 ⟨12, (true, true, 0)⟩
      = some (false, ⟨LineNumberInvalid, (true, false, 10)⟩) ∧
    sampleWait.Run 0 ⟨0, (false, 0)⟩ = some (true, ⟨7, (false, 1)⟩) :=
  ⟨by decide, by decide, by decide,
    (wait_until_point 5 samplePlace 12 (fun s => some (s.1, s)) (by decide) (by decide)
      (by decide)).2.2.1 ⟨12, (false, true, 0)⟩ (false, true, 0) rfl rfl,
    (wait_until_point 5 samplePlace 12 (fun s => some (s.1, s)) (by decide) (by decide)
      (by decide)).2.2.2.1 ⟨12, (true, true, 0)⟩ (true, true, 0) rfl rfl,
    (wait_until_point 0 (Ctx.hole : Ctx (Bool × Nat)) 7 (fun s => some (s.1, s)) (by decide)
      (by decide) (by decide)).2.2.2.2.2 (.stmt fun s => (s.1, s.2 + 1))
      (.stmt fun s => (s.1, s.2 + 10)) ⟨0, (false, 0)⟩ true ⟨0, (false, 1)⟩ (false, 1) rfl
      (by decide) rfl⟩

/-! ## C4: the value returned by `Run()` -/

/-- C4, as stated, fails for a suspension point on a line `L` with `L % 65536 = 65535`.  A
`PT_YIELD` written on line 131071 stores `131071 % 65536 = 65535`, which is
`LineNumberInvalid`: `Run()` returns true, and `IsRunning()` evaluated right after the call is
false.  The same happens for a `PT_WAIT_UNTIL` written on line 65535 whose condition is
false. -/
theorem returns_true_not_running :
    yieldOnLine131071.Run 0 ⟨0, 0⟩ = some (true, ⟨LineNumberInvalid, 0⟩) ∧
    Protothread.IsRunning (⟨LineNumberInvalid, 0⟩ : Protothread Nat) = false ∧
    waitOnLine65535.Run 0 ⟨0, false⟩ = some (true, ⟨LineNumberInvalid, false⟩) ∧
    Protothread.IsRunning (⟨LineNumberInvalid, false⟩ : Protothread Bool) = false := by
  refine ⟨by decide, by decide, by decide, by decide⟩

/-- C4, amended.  For every body none of whose suspension points stands on a line `l` with
`l % 65536 = 65535` (so for every body whose suspension points stand on lines 1 to 65534), and
for every state of the object, the value returned by `Run()` is the value of `IsRunning()`
right after the call: it is true exactly when the position left in `_ptLine` is not
`LineNumberInvalid`, and false exactly when it is. -/
theorem Run_returns_IsRunning {σ : Type} (fuel : Nat) (body : Body σ)
    (hv : ∀ l ∈ body.lines, l % LineNumberSize ≠ LineNumberInvalid)
    (p : Protothread σ) (r : Bool) (p1 : Protothread σ) (h : body.Run fuel p = some (r, p1)) :
    r = p1.IsRunning ∧ (r = true ↔ p1._ptLine ≠ LineNumberInvalid) ∧
      (r = false ↔ p1._ptLine = LineNumberInvalid) := by
  have hr := Run_returns fuel body hv p r p1 h
  subst hr
  refine ⟨rfl, ?_, ?_⟩ <;> simp [Protothread.IsRunning]

/-- Witness of C4 (amended): the first call of `sampleWait` with the flag cleared returns true
and leaves the position 7. -/
theorem Run_returns_IsRunning_witness :
    (∀ l ∈ sampleWait.lines, l % LineNumberSize ≠ LineNumberInvalid) ∧
    sampleWait.Run 0 ⟨0, (false, 0)⟩ = some (true, ⟨7, (false, 1)⟩) ∧
    (true = Protothread.IsRunning (⟨7, (false, 1)⟩ : Protothread (Bool × Nat))) :=
  ⟨by decide, by decide,
    (Run_returns_IsRunning 0 sampleWait (by decide) ⟨0, (false, 0)⟩ true ⟨7, (false, 1)⟩
      (by decide)).1⟩

/-! ## C5: two waits in a row -/

/-- C5, as stated, fails when the waits stand on lines 65535 and 65536.  The three calls of
the scenario return true, true, false, but the position `LineNumberInvalid = 65535` left by
the third call is the label of A's wait: a fourth call with A false enters the body there and
returns true; and a fourth call with A true and B false passes A's wait, is stopped by B's
wait, which stores `65536 % 65536 = 0`, and returns true with `IsRunning()` true. -/
theorem two_waits_on_lines_65535_65536 :
    RunEach 0 (waitAB 65535 65536)
        [fun _ => (false, false), fun _ => (true, false), fun _ => (true, true),
          fun _ => (false, true)]
        (Protothread.construct (false, false))
      = some ([true, true, false, true], ⟨LineNumberInvalid, (false, true)⟩) ∧
    RunEach 0 (waitAB 65535 65536)
        [fun _ => (false, false), fun _ => (true, false), fun _ => (true, true),
          fun _ => (true, false)]
        (Protothread.construct (false, false))
      = some ([true, true, false, true], ⟨0, (true, false)⟩) ∧
    Protothread.IsRunning (⟨0, (true, false)⟩ : Protothread (Bool × Bool)) = true := by
  refine ⟨by decide, by decide, by decide⟩

/-- C5, amended.  The body is `PT_WAIT_UNTIL(A); PT_WAIT_UNTIL(B);` with the waits on two
different lines `lA` and `lB` from 1 to 65534 (the body is well-formed), the object is newly
constructed, and the environment sets `(A, B)` to `(false, false)`, then `(true, false)`, then
`(true, true)` before the three calls of `Run()`.  The calls return true, true, false; after
the first the position is `lA`, after the second it is `lB`, after the third it is
`LineNumberInvalid` and `IsRunning()` is false; and every further call, whatever the
environment does to `A` and `B`, returns false and leaves `IsRunning()` false. -/
theorem two_waits_scenario (fuel lA lB : Nat) (hwf : (waitAB lA lB).WellFormed)
    (s0 : Bool × Bool) :
    (waitAB lA lB).Run fuel ⟨0, (false, false)⟩ = some (true, ⟨lA, (false, false)⟩) ∧
    (waitAB lA lB).Run fuel ⟨lA, (true, false)⟩ = some (true, ⟨lB, (true, false)⟩) ∧
    (waitAB lA lB).Run fuel ⟨lB, (true, true)⟩
      = some (false, ⟨LineNumberInvalid, (true, true)⟩) ∧
    RunEach fuel (waitAB lA lB)
        [fun _ => (false, false), fun _ => (true, false), fun _ => (true, true)]
        (Protothread.construct s0)
      = some ([true, true, false], ⟨LineNumberInvalid, (true, true)⟩) ∧
    Protothread.IsRunning (⟨LineNumberInvalid, (true, true)⟩ : Protothread (Bool × Bool))
      = false ∧
    ∀ (es : List (Bool × Bool → Bool × Bool)),
      RunEach fuel (waitAB lA lB) es ⟨LineNumberInvalid, (true, true)⟩
          = some (List.replicate es.length false,
              ⟨LineNumberInvalid, envOnly es (true, true)⟩) ∧
        Protothread.IsRunning
          (⟨LineNumberInvalid, envOnly es (true, true)⟩ : Protothread (Bool × Bool)) = false := by
  have hA : 0 < lA ∧ lA < LineNumberInvalid := hwf.2 lA (by simp [waitAB, Body.lines])
  have hB : 0 < lB ∧ lB < LineNumberInvalid := hwf.2 lB (by simp [waitAB, Body.lines])
  have hAB : lA ≠ lB := by
    have := hwf.1
    simp [waitAB, Body.lines] at this
    exact this
  have hmA := line_mod_of_lt hA.2
  have hmB := line_mod_of_lt hB.2
  have h1 : (waitAB lA lB).Run fuel ⟨0, (false, false)⟩
      = some (true, ⟨lA, (false, false)⟩) := by
    rw [Run_of_zero fuel _ _ rfl, waitAB, exec_seq_run, exec_wait_until_run]
    simp [hmA, PT_END]
  have h2 : (waitAB lA lB).Run fuel ⟨lA, (true, false)⟩
      = some (true, ⟨lB, (true, false)⟩) := by
    rw [Run_of_pos fuel _ _ hA.1, waitAB, exec_seq_seek, exec_wait_until_seek]
    simp [exec_wait_until_run, hmB, PT_END]
  have h3 : (waitAB lA lB).Run fuel ⟨lB, (true, true)⟩
      = some (false, ⟨LineNumberInvalid, (true, true)⟩) := by
    rw [Run_of_pos fuel _ _ hB.1, waitAB, exec_seq_seek, exec_wait_until_seek]
    simp [exec_wait_until_seek, hAB, PT_END, Protothread.Stop]
  refine ⟨h1, h2, h3, ?_, by simp [Protothread.IsRunning], fun es => ⟨?_, ?_⟩⟩
  · simp [RunEach, Protothread.construct, h1, h2, h3]
  · exact RunEach_of_invalid fuel _ (invalid_not_mem_lines hwf) es _
  · simp [Protothread.IsRunning]

/-- Witness of C5 (amended): the two waits on lines 3 and 4. -/
theorem two_waits_scenario_witness :
    (waitAB 3 4).WellFormed ∧
    RunEach 0 (waitAB 3 4)
        [fun _ => (false, false), fun _ => (true, false), fun _ => (true, true)]
        (Protothread.construct (false, false))
      = some ([true, true, false], ⟨LineNumberInvalid, (true, true)⟩) :=
  ⟨by decide, (two_waits_scenario 0 3 4 (by decide) (false, false)).2.2.2.1⟩

/-! ## C6: `PT_YIELD` -/

section Yields

variable {σ : Type}

theorem lines_yields (ls : List Nat) : (yields ls : Body σ).lines = ls := by
  induction ls with
  | nil => rfl
  | cons l ls ih => simp [yields, Body.lines, ih]

/-- The yields executed from the first one: the first one returns. -/
theorem exec_yields_run (fuel : Nat) (ls : List Nat) (y : Bool) (p : Protothread σ) :
    exec fuel (yields ls).expand none y p =
      match ls with
      | [] => some (.next y p)
      | l :: _ => some (.returned true ⟨l % LineNumberSize, p.fields⟩) := by
  cases ls with
  | nil => simp [yields, Body.expand, exec]
  | cons l ls => simp [yields, exec_seq_run, exec_yield_run]

/-- Control transferred to the yield on line `l`: it falls through, and the next yield, when
there is one, returns. -/
theorem exec_yields_seek (fuel : Nat) (pre : List Nat) (l : Nat) (post : List Nat)
    (hl : l ∉ pre) (p : Protothread σ) :
    exec fuel (yields (pre ++ l :: post)).expand (some l) true p =
      match post with
      | [] => some (.next true p)
      | l2 :: _ => some (.returned true ⟨l2 % LineNumberSize, p.fields⟩) := by
  induction pre with
  | nil =>
    simp only [List.nil_append, yields, exec_seq_seek, exec_yield_seek, if_true]
    exact exec_yields_run fuel post true p
  | cons a pre ih =>
    have ha : a ≠ l := fun e => hl (by simp [e])
    have hpre : l ∉ pre := fun h => hl (by simp [h])
    simp only [List.cons_append, yields, exec_seq_seek, exec_yield_seek, if_neg ha]
    exact ih hpre

theorem Run_yields_at (fuel : Nat) (pre : List Nat) (l : Nat) (post : List Nat)
    (hwf : (yields (pre ++ l :: post) : Body σ).LinesFit) (s : σ) :
    (yields (pre ++ l :: post)).Run fuel ⟨l, s⟩ =
      match post with
      | [] => some (false, ⟨LineNumberInvalid, s⟩)
      | l2 :: _ => some (true, ⟨l2, s⟩) := by
  have hnd : (pre ++ l :: post).Nodup := by simpa [lines_yields] using hwf.1
  have hv : ∀ x ∈ pre ++ l :: post, 0 < x ∧ x < LineNumberSize := by
    simpa [lines_yields] using hwf.2
  have hl : l ∉ pre := by
    intro h
    have := List.disjoint_of_nodup_append hnd h
    exact this (by simp)
  have h0 : 0 < l := (hv l (by simp)).1
  rw [Run_of_pos fuel _ ⟨l, s⟩ h0, exec_yields_seek fuel pre l post hl]
  cases post with
  | nil => rfl
  | cons l2 post =>
    have h2 := line_mod_of_lt_size (hv l2 (by simp)).2
    simp [PT_END, h2]

theorem RunEach_yields_at (fuel : Nat) (post : List Nat) :
    ∀ (pre : List Nat) (l : Nat) (_ : (yields (pre ++ l :: post) : Body σ).LinesFit)
      (es : List (σ → σ)) (_ : es.length = post.length + 1) (s : σ),
      RunEach fuel (yields (pre ++ l :: post)) es ⟨l, s⟩
        = some (List.replicate post.length true ++ [false],
            ⟨LineNumberInvalid, envOnly es s⟩) := by
  induction post with
  | nil =>
    intro pre l hwf es hes s
    match es, hes with
    | [e], _ =>
      simp [RunEach, Run_yields_at fuel pre l [] hwf, envOnly]
  | cons l2 post ih =>
    intro pre l hwf es hes s
    match es, hes with
    | e :: es, hes =>
      have hlen : es.length = post.length + 1 := by simpa using hes
      have hwf2 : (yields ((pre ++ [l]) ++ l2 :: post) : Body σ).LinesFit := by
        simpa using hwf
      have h := ih (pre ++ [l]) l2 hwf2 es hlen (e s)
      simp only [List.append_assoc, List.singleton_append] at h
      simp [RunEach, Run_yields_at fuel pre l (l2 :: post) hwf, h, envOnly,
        List.replicate_succ]

end Yields

/-- C6, as stated, fails for a yield written on line 65536.  The yield stores
`65536 % 65536 = 0` in `_ptLine`, so the next call of `Run()` does not resume at the yield: it
enters the body at `case 0:`.  The body of one yield on that line returns true on every call,
never false; and in `count += 1; PT_YIELD();` the statement before the yield is executed again
by every call. -/
theorem yield_on_line_65536_restarts :
    RunEach 0 (yields [65536] : Body Nat) [id, id, id] (Protothread.construct 0)
      = some ([true, true, true], ⟨0, 0⟩) ∧
    RunEach 0 yieldOnLine65536 [id, id, id] (Protothread.construct 0)
      = some ([true, true, true], ⟨0, 3⟩) := by
  refine ⟨by decide, by decide⟩

/-- C6, amended. Let `PT_YIELD()` stand at any place `c` of a body made of plain statements,
sequences, `if`/`else`, `while` loops and `PT_*` statements (no `switch` statement of the body's
own encloses the place), on a line `l` from 1 to 65535 on which no other suspension point of the
body stands.

* Reached (control arrives at the statement with any value `y` of `ptYielded` and any object
  `p`): the statement returns true with position `l` and the fields unchanged; nothing of what
  comes after the place is executed, and `Run()` returns true.
* The next call, which has position `l`: no condition is evaluated, and whatever the fields
  are the call goes on with what comes after the place, from the object as it is.
* In particular, for a body `pre Y post` called with position 0, `Y` being the yield: when
  `pre` runs to its end, `Run()` returns true with position `l` and the fields left by `pre`;
  `post` has no effect.
* A body of `n` yields in a row on `n` different lines from 1 to 65535 (the lines `ls`,
  `n = ls.length`), started from a newly constructed object and called `n + 1` times, the
  environment changing the fields at will before each call: the first `n` calls return true
  and call `n + 1` returns false. -/
theorem yield_point {σ : Type} (fuel : Nat) (c : Ctx σ) (l : Nat)
    (h0 : 0 < l) (hl : l < LineNumberSize) (hc : l ∉ c.lines) :
    (∀ (y : Bool) (p p0 : Protothread σ),
      exec fuel (Body.PT_YIELD l : Body σ).expand none y p
        = some (.returned true ⟨l, p.fields⟩) ∧
      PT_END p0 (c.after fuel (.PT_YIELD l)
          (exec fuel (Body.PT_YIELD l : Body σ).expand none y p))
        = some (true, ⟨l, p.fields⟩)) ∧
    (∀ (p : Protothread σ), p._ptLine = l →
      (c.fill (.PT_YIELD l)).Run fuel p
        = PT_END p (c.after fuel (.PT_YIELD l) (some (.next true p)))) ∧
    (∀ (pre post : Body σ) (p : Protothread σ) (y1 : Bool) (p1 : Protothread σ),
      p._ptLine = 0 → exec fuel pre.expand none true p = some (.next y1 p1) →
      (Body.seq pre (.seq (.PT_YIELD l) post)).Run fuel p = some (true, ⟨l, p1.fields⟩)) ∧
    (∀ (ls : List Nat), (yields ls : Body σ).LinesFit →
      ∀ (es : List (σ → σ)) (s : σ), es.length = ls.length + 1 →
        RunEach fuel (yields ls) es (Protothread.construct s)
          = some (List.replicate ls.length true ++ [false],
              ⟨LineNumberInvalid, envOnly es s⟩)) := by
  have hmod := line_mod_of_lt_size hl
  refine ⟨?_, ?_, ?_, ?_⟩
  · intro y p p0
    have hx : exec fuel (Body.PT_YIELD l : Body σ).expand none y p
        = some (.returned true ⟨l, p.fields⟩) := by
      rw [exec_yield_run, hmod]
    refine ⟨hx, ?_⟩
    rw [hx, after_returned]; rfl
  · intro p hp
    subst hp
    rw [Run_at_place fuel c _ p h0 hc, exec_yield_seek, if_pos rfl, if_pos rfl]
  · intro pre post p y1 p1 hp hpre
    rw [Run_of_zero fuel _ _ hp, exec_seq_run, hpre]
    simp only []
    rw [exec_seq_run, exec_yield_run, hmod]
    rfl
  · intro ls hls es s hes
    cases ls with
    | nil =>
      match es, hes with
      | [e], _ =>
        simp [RunEach, Protothread.construct, Run_of_zero, yields, Body.expand, exec, PT_END,
          Protothread.Stop, envOnly]
    | cons l1 ls =>
      match es, hes with
      | e :: es, hes =>
        have hlen : es.length = ls.length + 1 := by simpa using hes
        have h1 : (yields (l1 :: ls) : Body σ).Run fuel ⟨0, e s⟩ = some (true, ⟨l1, e s⟩) := by
          have hm := line_mod_of_lt_size (hls.2 l1 (by simp [lines_yields])).2
          rw [Run_of_zero fuel _ _ rfl, exec_yields_run]
          simp [PT_END, hm]
        have h2 := RunEach_yields_at fuel ls [] l1 (by simpa using hls) es hlen (e s)
        simp only [List.nil_append] at h2
        simp [RunEach, Protothread.construct, h1, h2, envOnly, List.replicate_succ]

/-- Witness of C6 (amended): the body is one statement of the subclass and three yields on
lines 3, 4 and 5; the place is the yield on line 3.  A call with position 3 falls through the
yield and stops at the yield of line 4; a call from the start stops at the yield of line 3;
four calls of three yields from a new object return true, true, true, false, also when the
last yield stands on line 65535. -/
theorem yield_point_witness :
    0 < 3 ∧ 3 < LineNumberSize ∧
    3 ∉ (Ctx.seqR (.stmt fun (s : Nat) => s + 1) (.seqL .hole (yields [4, 5]))).lines ∧
    ((Ctx.seqR (.stmt fun (s : Nat) => s + 1) (.seqL .hole (yields [4, 5]))).fill
        (.PT_YIELD 3)).Run 0 ⟨3, 7⟩ = some (true, ⟨4, 7⟩) ∧
    (Body.seq (.stmt fun (s : Nat) => s + 1) (.seq (.PT_YIELD 3) (yields [4, 5]))).Run 0 ⟨0, 7⟩
      = some (true, ⟨3, 8⟩) ∧
    (yields [3, 4, 5] : Body Nat).LinesFit ∧
    RunEach 0 (yields [3, 4, 5]) [id, id, fun s => s + 1, id] (Protothread.construct 0)
      = some ([true, true, true, false], ⟨LineNumberInvalid, 1⟩) ∧
    (yields [3, 4, 65535] : Body Nat).LinesFit ∧
    RunEach 0 (yields [3, 4, 65535]) [id, id, id, id] (Protothread.construct 0)
      = some ([true, true, true, false], ⟨LineNumberInvalid, 0⟩) :=
  ⟨by decide, by decide, by decide,
    (yield_point 0 (Ctx.seqR (.stmt fun (s : Nat) => s + 1) (.seqL .hole (yields [4, 5]))) 3
      (by decide) (by decide) (by decide)).2.1 ⟨3, 7⟩ rfl,
    (yield_point 0 (Ctx.seqR (.stmt fun (s : Nat) => s + 1) (.seqL .hole (yields [4, 5]))) 3
      (by decide) (by decide) (by decide)).2.2.1 (.stmt fun s => s + 1) (yields [4, 5])
      ⟨0, 7⟩ true ⟨0, 8⟩ rfl (by decide),
    by decide,
    (yield_point 0 (Ctx.seqR (.stmt fun (s : Nat) => s + 1) (.seqL .hole (yields [4, 5]))) 3
      (by decide) (by decide) (by decide)).2.2.2 [3, 4, 5] (by decide)
      [id, id, fun s => s + 1, id] 0 rfl,
    by decide,
    (yield_point 0 (Ctx.seqR (.stmt fun (s : Nat) => s + 1) (.seqL .hole (yields [4, 5]))) 3
      (by decide) (by decide) (by decide)).2.2.2 [3, 4, 65535] (by decide)
      [id, id, id, id] 0 rfl⟩

/-! ## C7: `PT_YIELD_UNTIL` -/

/-- C7.  Let `PT_YIELD_UNTIL(cond)` stand on line `l` at any place `c` of a well-formed body.

* Reached (control arrives at the statement with any value `y` of `ptYielded` and any object
  `p`, so also when `cond` holds): the statement returns true with position `l` and the fields
  unchanged; nothing of what comes after the place is executed, and `Run()` returns true.
* Resumed (a call of `Run()` with position `l`): the statement does exactly what
  `PT_WAIT_UNTIL(cond)` on that line does when resumed; with `cond` false `Run()` returns true
  and the position stays `l`, and with `cond` true the call goes on with what comes after the
  place.
* In particular, for a body `pre Y post` called with position 0, `Y` being the statement: when
  `pre` runs to its end, `Run()` returns true with position `l` and the fields left by `pre`,
  whatever `cond` is; `post` has no effect. -/
theorem yield_until_point {σ : Type} (fuel : Nat) (c : Ctx σ) (l : Nat)
    (cond : σ → Option (Bool × σ)) (hwf : (c.fill (.PT_YIELD_UNTIL l cond)).WellFormed) :
    (∀ (y : Bool) (p p0 : Protothread σ),
      exec fuel (Body.PT_YIELD_UNTIL l cond).expand none y p
        = some (.returned true ⟨l, p.fields⟩) ∧
      PT_END p0 (c.after fuel (.PT_YIELD_UNTIL l cond)
          (exec fuel (Body.PT_YIELD_UNTIL l cond).expand none y p))
        = some (true, ⟨l, p.fields⟩)) ∧
    (∀ (p : Protothread σ),
      exec fuel (Body.PT_YIELD_UNTIL l cond).expand (some l) true p
        = exec fuel (Body.PT_WAIT_UNTIL l cond).expand (some l) true p) ∧
    (∀ (p : Protothread σ) (s1 : σ), p._ptLine = l → cond p.fields = some (false, s1) →
      (c.fill (.PT_YIELD_UNTIL l cond)).Run fuel p = some (true, ⟨l, s1⟩)) ∧
    (∀ (p : Protothread σ) (s1 : σ), p._ptLine = l → cond p.fields = some (true, s1) →
      (c.fill (.PT_YIELD_UNTIL l cond)).Run fuel p
        = PT_END p (c.after fuel (.PT_YIELD_UNTIL l cond) (some (.next true ⟨l, s1⟩)))) ∧
    (∀ (pre post : Body σ) (p : Protothread σ) (y1 : Bool) (p1 : Protothread σ),
      p._ptLine = 0 → exec fuel pre.expand none true p = some (.next y1 p1) →
      (Body.seq pre (.seq (.PT_YIELD_UNTIL l cond) post)).Run fuel p
        = some (true, ⟨l, p1.fields⟩)) := by
  obtain ⟨hc, h0, hlt⟩ := wf_at_place hwf (l := l) (by simp [Body.lines])
  have hmod := line_mod_of_lt hlt
  refine ⟨?_, ?_, ?_, ?_, ?_⟩
  · intro y p p0
    have hx : exec fuel (Body.PT_YIELD_UNTIL l cond).expand none y p
        = some (.returned true ⟨l, p.fields⟩) := by
      rw [exec_yield_until_run, hmod]
    refine ⟨hx, ?_⟩
    rw [hx, after_returned]; rfl
  · intro p
    rw [exec_yield_until_seek, exec_wait_until_seek, if_pos rfl, if_pos rfl, if_pos rfl]
  · intro p s1 hp hcond
    subst hp
    rw [Run_at_place fuel c _ p h0 hc, exec_yield_until_seek, if_pos rfl, if_pos rfl, hcond]
    simp only [after_returned]
    rfl
  · intro p s1 hp hcond
    subst hp
    rw [Run_at_place fuel c _ p h0 hc, exec_yield_until_seek, if_pos rfl, if_pos rfl, hcond]
  · intro pre post p y1 p1 hp hpre
    rw [Run_of_zero fuel _ _ hp, exec_seq_run, hpre]
    simp only []
    rw [exec_seq_run, exec_yield_until_run, hmod]
    rfl

/-- Witness of C7: `count += 1; PT_YIELD_UNTIL(flag); count += 10;` with the flag set from the
start.  The first call returns true at the yield, the second one ends the body. -/
theorem yield_until_point_witness :
    ((Ctx.seqR (.stmt fun (s : Bool × Nat) => (s.1, s.2 + 1))
        (.seqL .hole (.stmt fun s => (s.1, s.2 + 10)))).fill
          (.PT_YIELD_UNTIL 9 fun s => some (s.1, s))).WellFormed ∧
    RunEach 0 ((Ctx.seqR (.stmt fun (s : Bool × Nat) => (s.1, s.2 + 1))
        (.seqL .hole (.stmt fun s => (s.1, s.2 + 10)))).fill
          (.PT_YIELD_UNTIL 9 fun s => some (s.1, s))) [id] (Protothread.construct (true, 0))
      = some ([true], ⟨9, (true, 1)⟩) ∧
    ((Ctx.seqR (.stmt fun (s : Bool × Nat) => (s.1, s.2 + 1))
        (.seqL .hole (.stmt fun s => (s.1, s.2 + 10)))).fill
          (.PT_YIELD_UNTIL 9 fun s => some (s.1, s))).Run 0 ⟨9, (true, 1)⟩
      = some (false, ⟨LineNumberInvalid, (true, 11)⟩) :=
  ⟨by decide, by decide,
    (yield_until_point 0 (Ctx.seqR (.stmt fun (s : Bool × Nat) => (s.1, s.2 + 1))
        (.seqL .hole (.stmt fun s => (s.1, s.2 + 10)))) 9 (fun s => some (s.1, s))
      (by decide)).2.2.2.1 ⟨9, (true, 1)⟩ (true, 1) rfl rfl⟩

/-! ## C8: `PT_SPAWN` -/

/-- C8, as stated, fails for a spawn written on line 65537.  The spawn stores
`65537 % 65536 = 1` in the parent's `_ptLine`, and the parent's body has no `case 1:`.  The
parent is `PT_SPAWN(child);` and the child has two yields (lines 3 and 4): the first call of
the parent's `Run()` returns true with the child at its first yield; the second call finds no
case for position 1, calls nothing of the child and returns false, and so does the third,
while the child is still at its first yield and its `Run()` has never returned false. -/
theorem spawn_on_line_65537_abandons_child :
    RunEach 0 spawnOnLine65537 [id, id, id] (Protothread.construct (⟨0, 0⟩, ()))
      = some ([true, false, false], ⟨LineNumberInvalid, (⟨3, 0⟩, ())⟩) ∧
    Protothread.IsRunning (⟨3, 0⟩ : Protothread Nat) = true := by
  refine ⟨by decide, by decide⟩

/-- C8, amended. The parent's fields are a child protothread with body `cb` and further fields;
let `PT_SPAWN(child)` stand at any place `c` of a parent body made of plain statements, sequences,
`if`/`else`, `while` loops and `PT_*` statements (no `switch` statement of the body's own encloses
the place), on a line `l` from 1 to 65535 on which no other suspension point of the parent's body
stands.

* Reached, the child being in any state: the child's body is executed from its first statement
  on the child's fields (its position is first set to 0 by `Restart()`, whatever it was); the
  parent records position `l`, returns true when the child's `Run()` does, and goes on when it
  returns false.
* Resumed (a call of the parent's `Run()` with position `l`): the child's `Run()` is called on
  the child as it is, without `Restart()`; while it returns true the parent returns true and
  stays at `l`, and when it returns false the parent goes on with what comes after the place.
* Scenario: the parent `PT_SPAWN(child); PT_SPAWN(child);` with the child `PT_WAIT_UNTIL(C);`,
  the two spawns on different lines from 1 to 65535 and the child's wait on such a line, the
  child being in any state `n` at the start and having passed its wait `k` times so far.
  With `C` false before the first call and true before the second, the calls return true and
  false; after the first the parent is at the first spawn and the child at its wait; after the
  second the child has passed its wait `k + 2` times: its body ran from the start to the end
  twice. -/
theorem spawn_point {τ ρ : Type} (fuel fc : Nat) (c : Ctx (Protothread τ × ρ)) (l : Nat)
    (cb : Body τ) (h0 : 0 < l) (hl : l < LineNumberSize) (hc : l ∉ c.lines) :
    (∀ (y : Bool) (p : Protothread (Protothread τ × ρ)),
      p.fields.1.Restart._ptLine = 0 ∧
      cb.Run fc p.fields.1.Restart
        = PT_END ⟨0, p.fields.1.fields⟩ (exec fc cb.expand none true ⟨0, p.fields.1.fields⟩) ∧
      exec fuel (Body.PT_SPAWN l (Child.member (cb.Run fc))).expand none y p
        = match cb.Run fc p.fields.1.Restart with
          | none => none
          | some (true, ch) => some (.returned true ⟨l, (ch, p.fields.2)⟩)
          | some (false, ch) => some (.next y ⟨l, (ch, p.fields.2)⟩)) ∧
    (∀ (p : Protothread (Protothread τ × ρ)) (ch : Protothread τ), p._ptLine = l →
      cb.Run fc p.fields.1 = some (true, ch) →
      (c.fill (.PT_SPAWN l (Child.member (cb.Run fc)))).Run fuel p
        = some (true, ⟨l, (ch, p.fields.2)⟩)) ∧
    (∀ (p : Protothread (Protothread τ × ρ)) (ch : Protothread τ), p._ptLine = l →
      cb.Run fc p.fields.1 = some (false, ch) →
      (c.fill (.PT_SPAWN l (Child.member (cb.Run fc)))).Run fuel p
        = PT_END p (c.after fuel (.PT_SPAWN l (Child.member (cb.Run fc)))
            (some (.next true ⟨l, (ch, p.fields.2)⟩)))) ∧
    (∀ (l1 l2 lc n k : Nat) (c0 : Bool), (spawnTwice fc l1 l2 lc).LinesFit →
      (waitC lc).LinesFit →
      RunEach fuel (spawnTwice fc l1 l2 lc) [setC false]
          (Protothread.construct (⟨n, (c0, k)⟩, ()))
        = some ([true], ⟨l1, (⟨lc, (false, k)⟩, ())⟩) ∧
      RunEach fuel (spawnTwice fc l1 l2 lc) [setC false, setC true]
          (Protothread.construct (⟨n, (c0, k)⟩, ()))
        = some ([true, false], ⟨LineNumberInvalid, (⟨LineNumberInvalid, (true, k + 2)⟩, ())⟩)) := by
  have hmod := line_mod_of_lt_size hl
  refine ⟨?_, ?_, ?_, ?_⟩
  · intro y p
    refine ⟨rfl, Run_of_zero fc cb _ rfl, ?_⟩
    rw [exec_spawn_run, hmod]
    simp only [Child.member]
    cases hr : cb.Run fc p.fields.1.Restart with
    | none => rfl
    | some v =>
      obtain ⟨v, ch⟩ := v
      cases v <;> rfl
  · intro p ch hp hrun
    subst hp
    rw [Run_at_place fuel c _ p h0 hc, exec_spawn_seek, if_pos rfl]
    simp only [Child.member, hrun, after_returned]
    rfl
  · intro p ch hp hrun
    subst hp
    rw [Run_at_place fuel c _ p h0 hc, exec_spawn_seek, if_pos rfl]
    simp only [Child.member, hrun]
  · intro l1 l2 lc n k c0 hP hC
    have h1 : 0 < l1 ∧ l1 < LineNumberSize := hP.2 l1 (by simp [spawnTwice, Body.lines])
    have h2 : 0 < l2 ∧ l2 < LineNumberSize := hP.2 l2 (by simp [spawnTwice, Body.lines])
    have h12 : l1 ≠ l2 := by
      have := hP.1
      simp [spawnTwice, Body.lines] at this
      exact this
    have hlc : 0 < lc ∧ lc < LineNumberSize := hC.2 lc (by simp [waitC, Body.lines])
    have hm1 := line_mod_of_lt_size h1.2
    have hm2 := line_mod_of_lt_size h2.2
    have hmc := line_mod_of_lt_size hlc.2
    -- the child, run from the start with `C` false, waits
    have hcf : ∀ k : Nat, (waitC lc).Run fc ⟨0, (false, k)⟩ = some (true, ⟨lc, (false, k)⟩) := by
      intro k
      rw [Run_of_zero fc _ _ rfl, waitC, exec_wait_until_run]
      simp [hmc, PT_END]
    -- the child, run from the start with `C` true, runs to its end
    have hct : ∀ k : Nat, (waitC lc).Run fc ⟨0, (true, k)⟩
        = some (false, ⟨LineNumberInvalid, (true, k + 1)⟩) := by
      intro k
      rw [Run_of_zero fc _ _ rfl, waitC, exec_wait_until_run]
      simp [hmc, PT_END, Protothread.Stop]
    -- the child, resumed at its wait with `C` true, runs to its end
    have hcr : ∀ k : Nat, (waitC lc).Run fc ⟨lc, (true, k)⟩
        = some (false, ⟨LineNumberInvalid, (true, k + 1)⟩) := by
      intro k
      rw [Run_of_pos fc _ _ hlc.1, waitC, exec_wait_until_seek]
      simp [PT_END, Protothread.Stop]
    have hP1 : (spawnTwice fc l1 l2 lc).Run fuel ⟨0, (⟨n, (false, k)⟩, ())⟩
        = some (true, ⟨l1, (⟨lc, (false, k)⟩, ())⟩) := by
      rw [Run_of_zero fuel _ _ rfl, spawnTwice, exec_seq_run, exec_spawn_run]
      simp [Child.member, Protothread.Restart, hcf, hm1, PT_END]
    have hP2 : (spawnTwice fc l1 l2 lc).Run fuel ⟨l1, (⟨lc, (true, k)⟩, ())⟩
        = some (false, ⟨LineNumberInvalid, (⟨LineNumberInvalid, (true, k + 2)⟩, ())⟩) := by
      rw [Run_of_pos fuel _ _ h1.1, spawnTwice, exec_seq_seek, exec_spawn_seek]
      simp [Child.member, Protothread.Restart, hcr, hct, exec_spawn_run, hm2, PT_END,
        Protothread.Stop]
    constructor
    · simp [RunEach, Protothread.construct, setC, hP1]
    · simp [RunEach, Protothread.construct, setC, hP1, hP2]

/-- Witness of C8 (amended): the two spawns on lines 3 and 4, the child's wait on line 8; the
child is in the middle of an earlier use (position 8) and has passed its wait 5 times.  The
same scenario holds with the second spawn on line 65535. -/
theorem spawn_point_witness :
    0 < 3 ∧ 3 < LineNumberSize ∧
    3 ∉ (Ctx.seqL .hole (.PT_SPAWN 4 (Child.member ((waitC 8).Run 0))) :
        Ctx (Protothread (Bool × Nat) × Unit)).lines ∧
    (spawnTwice 0 3 4 8).LinesFit ∧ (waitC 8).LinesFit ∧
    RunEach 0 (spawnTwice 0 3 4 8) [setC false, setC true]
        (Protothread.construct (⟨8, (true, 5)⟩, ()))
      = some ([true, false], ⟨LineNumberInvalid, (⟨LineNumberInvalid, (true, 7)⟩, ())⟩) ∧
    (spawnTwice 0 3 65535 8).LinesFit ∧
    RunEach 0 (spawnTwice 0 3 65535 8) [setC false, setC true]
        (Protothread.construct (⟨8, (true, 5)⟩, ()))
      = some ([true, false], ⟨LineNumberInvalid, (⟨LineNumberInvalid, (true, 7)⟩, ())⟩) :=
  ⟨by decide, by decide, by decide, by decide, by decide,
    ((spawn_point 0 0
      (Ctx.seqL .hole (.PT_SPAWN 4 (Child.member ((waitC 8).Run 0))) :
        Ctx (Protothread (Bool × Nat) × Unit))
      3 (waitC 8) (by decide) (by decide) (by decide)).2.2.2 3 4 8 8 5 true
        (by decide) (by decide)).2,
    by decide,
    ((spawn_point 0 0
      (Ctx.seqL .hole (.PT_SPAWN 4 (Child.member ((waitC 8).Run 0))) :
        Ctx (Protothread (Bool × Nat) × Unit))
      3 (waitC 8) (by decide) (by decide) (by decide)).2.2.2 3 65535 8 8 5 true
        (by decide) (by decide)).2⟩

/-! ## C9: one call of the child's `Run()` for each call of the parent's -/

/-- C9, as stated, fails on the call at which the child's `Run()` returns false: the parent
falls through in the same call, and what follows may call the child's `Run()` again.

* The parent is `PT_WAIT_THREAD(child); PT_WAIT_THREAD(child);` (lines 3 and 4), its field
  counts the calls of the child's `Run()`, and the child's `Run()` returns false.  One call of
  the parent's `Run()` that is waiting at the first wait calls the child's `Run()` twice.
* The parent is `PT_SPAWN(child); PT_SPAWN(child);` (lines 3 and 4) with the child
  `PT_WAIT_UNTIL(C);`, which has passed its wait 5 times.  One call of the parent's `Run()`
  that is waiting at the first spawn, with `C` true, leaves the child having passed its wait 7
  times: the child advanced twice during one parent call. -/
theorem child_stepped_twice_in_one_call :
    waitThreadTwice.Run 0 ⟨3, 0⟩ = some (false, ⟨LineNumberInvalid, 2⟩) ∧
    (spawnTwice 0 3 4 8).Run 0 ⟨3, (⟨8, (true, 5)⟩, ())⟩
      = some (false, ⟨LineNumberInvalid, (⟨LineNumberInvalid, (true, 7)⟩, ())⟩) := by
  refine ⟨by decide, by decide⟩

/-- C9, amended. Let `b` be `PT_WAIT_THREAD(child)` or `PT_SPAWN(child)` at any place `c` of a
parent body made of plain statements, sequences, `if`/`else`, `while` loops and `PT_*` statements
(no `switch` statement of the body's own encloses the place), on a line `l` from 1 to 65535 on
which no other suspension point of the body stands, for any child (any effect `child.Run` of the
call `(child).Run()` on the parent's fields). Take a call of the parent's `Run()` that is waiting
there, that is, a call with position `l`.

* When the child's `Run()` returns true, the parent's `Run()` returns true with position `l`,
  and the parent's fields after the call are the fields left by one call of `child.Run` on
  the fields at entry: the call made exactly one call of the child's `Run()` and did nothing
  else.
* When the child's `Run()` returns false, the parent goes on, in the same call, with what
  comes after the place, from the fields left by that one call of `child.Run`; what comes
  after is not limited and may call the child's `Run()` again.
* When the child's `Run()` returns false and nothing comes after the place (the body is `b`
  alone), the parent's `Run()` returns false and the fields are those left by that one call of
  `child.Run`.
* When the call of the child's `Run()` does not return, neither does the parent's.

The call that reaches `PT_WAIT_THREAD(child)` also makes one call of `child.Run`, on the fields
it arrives with, and returns true when the child does; the call that reaches `PT_SPAWN(child)`
makes one call of `child.Run` after `child.Restart`. -/
theorem child_stepped_once {σ : Type} (fuel : Nat) (c : Ctx σ) (l : Nat) (child : Child σ)
    (b : Body σ) (hb : b = .PT_WAIT_THREAD l child ∨ b = .PT_SPAWN l child)
    (h0 : 0 < l) (hl : l < LineNumberSize) (hc : l ∉ c.lines) :
    (∀ (p : Protothread σ) (s1 : σ), p._ptLine = l → child.Run p.fields = some (true, s1) →
      (c.fill b).Run fuel p = some (true, ⟨l, s1⟩)) ∧
    (∀ (p : Protothread σ) (s1 : σ), p._ptLine = l → child.Run p.fields = some (false, s1) →
      (c.fill b).Run fuel p = PT_END p (c.after fuel b (some (.next true ⟨l, s1⟩)))) ∧
    (∀ (p : Protothread σ) (s1 : σ), p._ptLine = l → child.Run p.fields = some (false, s1) →
      b.Run fuel p = some (false, ⟨LineNumberInvalid, s1⟩)) ∧
    (∀ (p : Protothread σ), p._ptLine = l → child.Run p.fields = none →
      (c.fill b).Run fuel p = none) ∧
    (∀ (y : Bool) (p : Protothread σ),
      exec fuel (Body.PT_WAIT_THREAD l child).expand none y p
        = match child.Run p.fields with
          | none => none
          | some (true, s1) => some (.returned true ⟨l, s1⟩)
          | some (false, s1) => some (.next y ⟨l, s1⟩)) ∧
    (∀ (y : Bool) (p : Protothread σ),
      exec fuel (Body.PT_SPAWN l child).expand none y p
        = match child.Run (child.Restart p.fields) with
          | none => none
          | some (true, s1) => some (.returned true ⟨l, s1⟩)
          | some (false, s1) => some (.next y ⟨l, s1⟩)) := by
  have hmod := line_mod_of_lt_size hl
  have hseek : ∀ p : Protothread σ, p._ptLine = l →
      exec fuel b.expand (some p._ptLine) true p
        = match child.Run p.fields with
          | none => none
          | some (true, s1) => some (.returned true ⟨l, s1⟩)
          | some (false, s1) => some (.next true ⟨l, s1⟩) := by
    intro p hp
    subst hp
    rcases hb with rfl | rfl
    · rw [exec_wait_thread_seek, if_pos rfl]
    · rw [exec_spawn_seek, if_pos rfl]
  refine ⟨?_, ?_, ?_, ?_, ?_, ?_⟩
  · intro p s1 hp hrun
    have hs := hseek p hp
    subst hp
    rw [Run_at_place fuel c _ p h0 hc, hs, hrun]
    simp only [after_returned]
    rfl
  · intro p s1 hp hrun
    have hs := hseek p hp
    subst hp
    rw [Run_at_place fuel c _ p h0 hc, hs, hrun]
  · intro p s1 hp hrun
    have hs := hseek p hp
    subst hp
    have hr := Run_at_place fuel Ctx.hole b p h0 (by simp [Ctx.lines])
    simp only [Ctx.fill] at hr
    rw [hr, hs, hrun]
    rfl
  · intro p hp hrun
    have hs := hseek p hp
    subst hp
    rw [Run_at_place fuel c _ p h0 hc, hs, hrun]
    simp only [after_none]
    rfl
  · intro y p
    rw [exec_wait_thread_run, hmod]
  · intro y p
    rw [exec_spawn_run, hmod]

/-- Witness of C9 (amended): the parent's body is `PT_WAIT_THREAD(child);` on line 6 and
the child, a field of the parent, has three yields on lines 3, 4 and 5.  A call of the
parent's `Run()` while the child is at its first yield returns true and leaves the child at
its second yield: the child moved on by one call of its `Run()`.  A call while the child is at
its last yield returns false and leaves the child ended. -/
theorem child_stepped_once_witness :
    0 < 6 ∧ 6 < LineNumberSize ∧ 6 ∉ (Ctx.hole : Ctx (Protothread Nat × Unit)).lines ∧
    ((Ctx.hole : Ctx (Protothread Nat × Unit)).fill
        (.PT_WAIT_THREAD 6 (Child.member ((yields [3, 4, 5]).Run 0)))).Run 0
          ⟨6, (⟨3, 0⟩, ())⟩
      = some (true, ⟨6, (⟨4, 0⟩, ())⟩) ∧
    (Body.PT_WAIT_THREAD 6 (Child.member ((yields [3, 4, 5]).Run 0)) :
        Body (Protothread Nat × Unit)).Run 0 ⟨6, (⟨5, 0⟩, ())⟩
      = some (false, ⟨LineNumberInvalid, (⟨LineNumberInvalid, 0⟩, ())⟩) :=
  ⟨by decide, by decide, by decide,
    (child_stepped_once 0 (Ctx.hole : Ctx (Protothread Nat × Unit)) 6
      (Child.member ((yields [3, 4, 5]).Run 0))
      (.PT_WAIT_THREAD 6 (Child.member ((yields [3, 4, 5]).Run 0))) (Or.inl rfl)
      (by decide) (by decide) (by decide)).1 ⟨6, (⟨3, 0⟩, ())⟩ (⟨4, 0⟩, ()) rfl rfl,
    (child_stepped_once 0 (Ctx.hole : Ctx (Protothread Nat × Unit)) 6
      (Child.member ((yields [3, 4, 5]).Run 0))
      (.PT_WAIT_THREAD 6 (Child.member ((yields [3, 4, 5]).Run 0))) (Or.inl rfl)
      (by decide) (by decide) (by decide)).2.2.1 ⟨6, (⟨5, 0⟩, ())⟩
        (⟨LineNumberInvalid, 0⟩, ()) rfl (by decide)⟩

/-! ## C10: `Stop()` -/

/-- C10, as stated, fails in two ways.

* The body itself calls `Stop()` and then reaches a suspension point in the same call of
  `Run()`.  The body is `Stop(); PT_WAIT_UNTIL(flag);` (wait on line 5), the object is new and
  the flag is false.  The call `Stop();` of the body sets the position to `LineNumberInvalid`;
  the wait that follows stores 5 in `_ptLine` and returns true.  So after this call of
  `Run()`, in which the body called `Stop()`, `IsRunning()` is true, and the next call of
  `Run()` does not return false: it evaluates the flag and returns true.
* The owner calls `Stop()` on an object whose body is `PT_WAIT_UNTIL(flag);` written on line
  65535.  The position `LineNumberInvalid` is the label of that wait, so the next call of
  `Run()` enters the body there, evaluates the flag, which is false, and returns true. -/
theorem stop_in_body_overwritten :
    stopThenWait.WellFormed ∧
    exec 0 (Body.Stop : Body Bool).expand none true ⟨0, false⟩
      = some (.next true ⟨LineNumberInvalid, false⟩) ∧
    stopThenWait.Run 0 ⟨0, false⟩ = some (true, ⟨5, false⟩) ∧
    Protothread.IsRunning (⟨5, false⟩ : Protothread Bool) = true ∧
    stopThenWait.Run 0 ⟨5, false⟩ = some (true, ⟨5, false⟩) ∧
    waitOnLine65535.Run 0 (Protothread.Stop ⟨0, false⟩)
      = some (true, ⟨LineNumberInvalid, false⟩) := by
  refine ⟨by decide, by decide, by decide, by decide, by decide, by decide⟩

/-- C10, amended.  For every object `p`, in any state:

* `Stop()` sets the position to `LineNumberInvalid` at once, so `IsRunning()` is false right
  after it, and leaves the fields alone; calling it twice gives the same object as calling it
  once.
* Called by the owner between calls of `Run()` of a body that has no suspension point on line
  65535: the next call of `Run()` returns false and changes nothing, and so does every later
  call, whatever the environment does to the fields: `IsRunning()` is false from then on.
* Called by the body during a call of `Run()`: the position is `LineNumberInvalid` right after
  the call of `Stop()` and control goes on to the next statement of the body.  With
  `PT_EXIT()`, that is `Stop(); return false;`, at any place `c`, `Run()` returns false at once
  with the position `LineNumberInvalid`, and nothing of what comes after the place is executed.
* A `PT_WAIT_UNTIL` on line `l` that stands right after the call `Stop();`, at any place `c`
  of the body, stores `l % 65536` in `_ptLine`.  When its condition is false, `Run()` returns
  true with that position, nothing of what comes after the place is executed, and when
  `l % 65536` is not 65535, `IsRunning()` is true after that call.  When its condition is true,
  control goes on after the wait with that position, and when nothing follows the wait the end
  of the body stops the object: `Run()` returns false with position `LineNumberInvalid`. -/
theorem stop_effect {σ : Type} (p : Protothread σ) :
    (p.Stop.IsRunning = false ∧ p.Stop._ptLine = LineNumberInvalid ∧
      p.Stop.fields = p.fields ∧ p.Stop.Stop = p.Stop) ∧
    (∀ (fuel : Nat) (body : Body σ), LineNumberInvalid ∉ body.lines →
      body.Run fuel p.Stop = some (false, p.Stop) ∧
      ∀ (es : List (σ → σ)),
        RunEach fuel body es p.Stop
          = some (List.replicate es.length false, ⟨LineNumberInvalid, envOnly es p.fields⟩) ∧
        Protothread.IsRunning ⟨LineNumberInvalid, envOnly es p.fields⟩ = false) ∧
    (∀ (fuel : Nat) (y : Bool),
      exec fuel (Body.Stop : Body σ).expand none y p = some (.next y p.Stop)) ∧
    (∀ (fuel : Nat) (c : Ctx σ) (y : Bool) (p0 : Protothread σ),
      PT_END p0 (c.after fuel .PT_EXIT (exec fuel (Body.PT_EXIT : Body σ).expand none y p))
        = some (false, p.Stop)) ∧
    (∀ (fuel l : Nat) (cond : σ → Option (Bool × σ)) (y : Bool) (s1 : σ) (c : Ctx σ)
      (p0 : Protothread σ), cond p.fields = some (false, s1) →
      exec fuel (Body.seq .Stop (.PT_WAIT_UNTIL l cond)).expand none y p
          = some (.returned true ⟨l % LineNumberSize, s1⟩) ∧
        PT_END p0 (c.after fuel (.seq .Stop (.PT_WAIT_UNTIL l cond))
            (exec fuel (Body.seq .Stop (.PT_WAIT_UNTIL l cond)).expand none y p))
          = some (true, ⟨l % LineNumberSize, s1⟩) ∧
        (l % LineNumberSize ≠ LineNumberInvalid →
          Protothread.IsRunning ⟨l % LineNumberSize, s1⟩ = true)) ∧
    (∀ (fuel l : Nat) (cond : σ → Option (Bool × σ)) (y : Bool) (s1 : σ)
      (p0 : Protothread σ), cond p.fields = some (true, s1) →
      exec fuel (Body.seq .Stop (.PT_WAIT_UNTIL l cond)).expand none y p
          = some (.next y ⟨l % LineNumberSize, s1⟩) ∧
        PT_END p0 (exec fuel (Body.seq .Stop (.PT_WAIT_UNTIL l cond)).expand none y p)
          = some (false, ⟨LineNumberInvalid, s1⟩)) := by
  have hs : ∀ (fuel : Nat) (y : Bool),
      exec fuel (Body.Stop : Body σ).expand none y p = some (.next y p.Stop) := by
    intro fuel y
    simp [Body.expand, exec]
  refine ⟨⟨IsRunning_Stop p, rfl, rfl, rfl⟩, ?_, hs, ?_, ?_, ?_⟩
  · intro fuel body h65
    refine ⟨Run_of_invalid fuel body h65 p.Stop rfl, fun es => ⟨?_, ?_⟩⟩
    · exact RunEach_of_invalid fuel body h65 es p.fields
    · simp [Protothread.IsRunning]
  · intro fuel c y p0
    rw [exec_exit_run, after_returned]
    rfl
  · intro fuel l cond y s1 c p0 hcond
    have hx : exec fuel (Body.seq .Stop (.PT_WAIT_UNTIL l cond)).expand none y p
        = some (.returned true ⟨l % LineNumberSize, s1⟩) := by
      rw [exec_seq_run, hs]
      simp only []
      rw [exec_wait_until_run]
      simp [Protothread.Stop, hcond]
    refine ⟨hx, ?_, fun hl => IsRunning_stored hl s1⟩
    rw [hx, after_returned]
    rfl
  · intro fuel l cond y s1 p0 hcond
    have hx : exec fuel (Body.seq .Stop (.PT_WAIT_UNTIL l cond)).expand none y p
        = some (.next y ⟨l % LineNumberSize, s1⟩) := by
      rw [exec_seq_run, hs]
      simp only []
      rw [exec_wait_until_run]
      simp [Protothread.Stop, hcond]
    refine ⟨hx, ?_⟩
    rw [hx]
    rfl

/-- Witness of C10 (amended): the owner stops `sampleWait` while it waits on line 7 with the
flag cleared; the next calls return false although the flag is set again.  In the body
`Stop(); PT_WAIT_UNTIL(flag);` the wait on line 7 returns true with position 7 when the flag
is false, and the call returns false when the flag is true. -/
theorem stop_effect_witness :
    LineNumberInvalid ∉ sampleWait.lines ∧
    RunEach 0 sampleWait [fun s => (true, s.2), id]
        (Protothread.Stop ⟨7, (false, 1)⟩)
      = some ([false, false], ⟨LineNumberInvalid, (true, 1)⟩) ∧
    exec 0 (Body.seq .Stop (.PT_WAIT_UNTIL 7 fun (s : Bool × Nat) => some (s.1, s))).expand
        none true ⟨7, (false, 1)⟩
      = some (.returned true ⟨7 % LineNumberSize, (false, 1)⟩) ∧
    7 % LineNumberSize ≠ LineNumberInvalid ∧
    Protothread.IsRunning (⟨7 % LineNumberSize, (false, 1)⟩ : Protothread (Bool × Nat))
      = true ∧
    PT_END ⟨0, (true, 1)⟩
        (exec 0 (Body.seq .Stop (.PT_WAIT_UNTIL 7 fun (s : Bool × Nat) => some (s.1, s))).expand
          none true ⟨0, (true, 1)⟩)
      = some (false, ⟨LineNumberInvalid, (true, 1)⟩) :=
  ⟨by decide,
    (((stop_effect (⟨7, (false, 1)⟩ : Protothread (Bool × Nat))).2.1 0 sampleWait
      (by decide)).2 [fun s => (true, s.2), id]).1,
    ((stop_effect (⟨7, (false, 1)⟩ : Protothread (Bool × Nat))).2.2.2.2.1 0 7
      (fun s => some (s.1, s)) true (false, 1) .hole ⟨7, (false, 1)⟩ rfl).1,
    by decide,
    ((stop_effect (⟨7, (false, 1)⟩ : Protothread (Bool × Nat))).2.2.2.2.1 0 7
      (fun s => some (s.1, s)) true (false, 1) .hole ⟨7, (false, 1)⟩ rfl).2.2 (by decide),
    ((stop_effect (⟨0, (true, 1)⟩ : Protothread (Bool × Nat))).2.2.2.2.2 0 7
      (fun s => some (s.1, s)) true (true, 1) ⟨0, (true, 1)⟩ rfl).2⟩

/-! ## C11: the values of `_ptLine` -/

/-- C11, as stated, fails for the line numbers 65535 and 65536.  A `PT_WAIT_UNTIL` written on
line 65535 stores `65535` in `_ptLine`, which is `LineNumberInvalid`: the call of `Run()`
returns true, the protothread is suspended at that wait, and `IsRunning()` is false.  A
`PT_YIELD` written on line 65536 stores `65536 % 65536 = 0`: the recorded position is 0, and
the next call of `Run()` starts the body again from its first statement. -/
theorem sentinel_collides_with_line :
    waitOnLine65535.Run 0 ⟨0, false⟩ = some (true, ⟨LineNumberInvalid, false⟩) ∧
    Protothread.IsRunning (⟨LineNumberInvalid, false⟩ : Protothread Bool) = false ∧
    yieldOnLine65536.Run 0 ⟨0, 0⟩ = some (true, ⟨0, 1⟩) ∧
    yieldOnLine65536.Run 0 ⟨0, 1⟩ = some (true, ⟨0, 2⟩) := by
  refine ⟨by decide, by decide, by decide, by decide⟩

/-- C11, amended.  `LineNumberInvalid` is 65535 and differs from 0.  `IsRunning()` is true for
a new object, and it is false exactly when `_ptLine` is `LineNumberInvalid`.  The assignment
`_ptLine = __LINE__;` on line `l` stores `l % 65536`.  For every line `l` from 1 to 65534 that
value is `l` itself, it differs from `LineNumberInvalid` and from 0, `IsRunning()` is true in
the state with that position, and each of the six suspension statements of the header, when
it suspends on being reached, leaves exactly the position `l`. -/
theorem line_tokens_valid {σ : Type} :
    LineNumberInvalid = 65535 ∧ LineNumberInvalid ≠ 0 ∧
    (∀ (s : σ), (Protothread.construct s).IsRunning = true) ∧
    (∀ (p : Protothread σ), p.IsRunning = false ↔ p._ptLine = LineNumberInvalid) ∧
    (∀ (fuel l : Nat) (y : Bool) (p : Protothread σ),
      exec fuel (Stmt.assignLine l) none y p = some (.next y ⟨l % LineNumberSize, p.fields⟩)) ∧
    (∀ (l : Nat), 0 < l → l < LineNumberInvalid →
      l % LineNumberSize = l ∧ l % LineNumberSize ≠ LineNumberInvalid ∧
      l % LineNumberSize ≠ 0 ∧
      (∀ (s : σ), Protothread.IsRunning ⟨l % LineNumberSize, s⟩ = true) ∧
      (∀ (fuel : Nat) (y : Bool) (p : Protothread σ) (c : σ → Option (Bool × σ))
          (child : Child σ) (s1 : σ),
        exec fuel (Body.PT_YIELD l : Body σ).expand none y p
          = some (.returned true ⟨l, p.fields⟩) ∧
        exec fuel (Body.PT_YIELD_UNTIL l c).expand none y p
          = some (.returned true ⟨l, p.fields⟩) ∧
        (c p.fields = some (false, s1) →
          exec fuel (Body.PT_WAIT_UNTIL l c).expand none y p
            = some (.returned true ⟨l, s1⟩)) ∧
        (c p.fields = some (true, s1) →
          exec fuel (Body.PT_WAIT_WHILE l c).expand none y p
            = some (.returned true ⟨l, s1⟩)) ∧
        (child.Run p.fields = some (true, s1) →
          exec fuel (Body.PT_WAIT_THREAD l child).expand none y p
            = some (.returned true ⟨l, s1⟩)) ∧
        (child.Run (child.Restart p.fields) = some (true, s1) →
          exec fuel (Body.PT_SPAWN l child).expand none y p
            = some (.returned true ⟨l, s1⟩)))) := by
  refine ⟨LineNumberInvalid_eq, by simp [LineNumberInvalid_eq], ?_, ?_, ?_, ?_⟩
  · intro s
    exact IsRunning_Restart ⟨0, s⟩
  · intro p
    simp [Protothread.IsRunning]
  · intro fuel l y p
    simp [exec]
  · intro l h0 hlt
    have hmod := line_mod_of_lt hlt
    refine ⟨hmod, ?_, ?_, ?_, ?_⟩
    · rw [hmod]; omega
    · rw [hmod]; omega
    · intro s
      exact IsRunning_line hlt s
    · intro fuel y p c child s1
      refine ⟨?_, ?_, ?_, ?_, ?_, ?_⟩
      · rw [exec_yield_run, hmod]
      · rw [exec_yield_until_run, hmod]
      · intro hc
        rw [exec_wait_until_run, hc, hmod]
      · intro hc
        rw [exec_wait_while_run, hc, hmod]
      · intro hc
        rw [exec_wait_thread_run, hc, hmod]
      · intro hc
        rw [exec_spawn_run, hc, hmod]

/-- Witness of C11 (amended): line 7 and the wait of `sampleWait`. -/
theorem line_tokens_valid_witness :
    0 < 7 ∧ 7 < LineNumberInvalid ∧ 7 % LineNumberSize = 7 ∧
    Protothread.IsRunning (⟨7 % LineNumberSize, (false, 1)⟩ : Protothread (Bool × Nat)) = true ∧
    exec 0 (Body.PT_WAIT_UNTIL 7 fun (s : Bool × Nat) => some (s.1, s)).expand none true
        ⟨0, (false, 1)⟩
      = some (.returned true ⟨7, (false, 1)⟩) :=
  ⟨by decide, by decide,
    ((line_tokens_valid (σ := Bool × Nat)).2.2.2.2.2 7 (by decide) (by decide)).1,
    ((line_tokens_valid (σ := Bool × Nat)).2.2.2.2.2 7 (by decide) (by decide)).2.2.2.1
      (false, 1),
    (((line_tokens_valid (σ := Bool × Nat)).2.2.2.2.2 7 (by decide) (by decide)).2.2.2.2
      0 true ⟨0, (false, 1)⟩ (fun s => some (s.1, s)) ⟨fun s => none, id⟩ (false, 1)).2.2.1
      rfl⟩

/-! ## C12: the positions that can be observed -/

section Positions

variable {σ : Type}

theorem PosFrom.chain {fuel : Nat} {s s1 : Stmt σ} {m m1 : Option Nat} {y y1 : Bool}
    {p p1 : Protothread σ} {v : Nat} (hstart : PosFrom fuel s m y p p1._ptLine)
    (hrec : ∀ l, Records fuel s1 m1 y1 p1 l → Records fuel s m y p l)
    (h : PosFrom fuel s1 m1 y1 p1 v) : PosFrom fuel s m y p v := by
  rcases h with h | h | h | ⟨l, hl, hv⟩
  · rw [h]; exact hstart
  · exact Or.inr (Or.inl h)
  · exact Or.inr (Or.inr (Or.inl h))
  · exact Or.inr (Or.inr (Or.inr ⟨l, hrec l hl, hv⟩))

theorem PosFrom.mono {fuel : Nat} {s s1 : Stmt σ} {m m1 : Option Nat} {y y1 : Bool}
    {p p1 : Protothread σ} {v : Nat} (hp : p1._ptLine = p._ptLine)
    (hrec : ∀ l, Records fuel s1 m1 y1 p1 l → Records fuel s m y p l)
    (h : PosFrom fuel s1 m1 y1 p1 v) : PosFrom fuel s m y p v :=
  PosFrom.chain (Or.inl hp) hrec h

theorem whileFrom_position (fuel : Nat) (e : Expr σ) (s : Stmt σ)
    (ih : ∀ (y : Bool) (p : Protothread σ) (o : Outcome σ), exec fuel s none y p = some o →
      ∀ p1, o.object = some p1 → PosFrom fuel s none y p p1._ptLine) :
    ∀ (n : Nat) (y : Bool) (p : Protothread σ) (o : Outcome σ),
      whileFrom e (fun y1 p1 => exec fuel s none y1 p1) n y p = some o →
      ∀ p1, o.object = some p1 → PosFrom fuel (.whileDo e s) none y p p1._ptLine := by
  intro n
  induction n with
  | zero => intro y p o h; simp [whileFrom] at h
  | succ n ihn =>
    intro y p o h p1 ho
    simp only [whileFrom] at h
    cases he : e.eval y p.fields with
    | none => simp [he] at h
    | some v =>
      obtain ⟨v, s1⟩ := v
      cases v with
      | false =>
        simp only [he, Option.some.injEq] at h
        subst h
        simp only [Outcome.object, Option.some.injEq] at ho
        subst ho
        exact Or.inl rfl
      | true =>
        simp only [he] at h
        cases hb : exec fuel s none y { p with fields := s1 } with
        | none => simp [hb] at h
        | some ob =>
          have hbody := ih y { p with fields := s1 } ob hb
          have hp : ({ p with fields := s1 } : Protothread σ)._ptLine = p._ptLine := rfl
          cases ob with
          | next y2 p2 =>
            simp only [hb] at h
            have hstart : PosFrom fuel (.whileDo e s) none y p p2._ptLine :=
              PosFrom.mono hp (fun l hl => Records.whileTurn he hl) (hbody p2 rfl)
            exact PosFrom.chain hstart (fun l hl => Records.whileLater he hb hl)
              (ihn y2 p2 o h p1 ho)
          | returned r p2 =>
            simp only [hb, Option.some.injEq] at h
            subst h
            simp only [Outcome.object, Option.some.injEq] at ho
            subst ho
            exact PosFrom.mono hp (fun l hl => Records.whileTurn he hl) (hbody _ rfl)
          | seeking =>
            simp only [hb, Option.some.injEq] at h
            subst h
            simp [Outcome.object] at ho

/-- The position left by an execution is the position it started with, 0,
`LineNumberInvalid`, or the value stored by a suspension point that the execution reached. -/
theorem exec_position (fuel : Nat) (s : Stmt σ) :
    ∀ (m : Option Nat) (y : Bool) (p : Protothread σ) (o : Outcome σ),
      exec fuel s m y p = some o →
      ∀ p1, o.object = some p1 → PosFrom fuel s m y p p1._ptLine := by
  induction s with
  | skip =>
    intro m y p o h p1 ho
    cases m with
    | none =>
      simp only [exec, Option.some.injEq] at h
      subst h
      simp only [Outcome.object, Option.some.injEq] at ho
      subst ho
      exact Or.inl rfl
    | some t =>
      simp only [exec, Option.some.injEq] at h
      subst h
      simp [Outcome.object] at ho
  | call f =>
    intro m y p o h p1 ho
    cases m with
    | none =>
      simp only [exec, Option.some.injEq] at h
      subst h
      simp only [Outcome.object, Option.some.injEq] at ho
      subst ho
      exact Or.inl rfl
    | some t =>
      simp only [exec, Option.some.injEq] at h
      subst h
      simp [Outcome.object] at ho
  | assignYielded b =>
    intro m y p o h p1 ho
    cases m with
    | none =>
      simp only [exec, Option.some.injEq] at h
      subst h
      simp only [Outcome.object, Option.some.injEq] at ho
      subst ho
      exact Or.inl rfl
    | some t =>
      simp only [exec, Option.some.injEq] at h
      subst h
      simp [Outcome.object] at ho
  | assignLine n =>
    intro m y p o h p1 ho
    cases m with
    | none =>
      simp only [exec, Option.some.injEq] at h
      subst h
      simp only [Outcome.object, Option.some.injEq] at ho
      subst ho
      exact Or.inr (Or.inr (Or.inr ⟨n, Records.assign n y p, rfl⟩))
    | some t =>
      simp only [exec, Option.some.injEq] at h
      subst h
      simp [Outcome.object] at ho
  | caseLabel n =>
    intro m y p o h p1 ho
    cases m with
    | none =>
      simp only [exec, Option.some.injEq] at h
      subst h
      simp only [Outcome.object, Option.some.injEq] at ho
      subst ho
      exact Or.inl rfl
    | some t =>
      simp only [exec] at h
      split at h
      · simp only [Option.some.injEq] at h
        subst h
        simp only [Outcome.object, Option.some.injEq] at ho
        subst ho
        exact Or.inl rfl
      · simp only [Option.some.injEq] at h
        subst h
        simp [Outcome.object] at ho
  | ret r =>
    intro m y p o h p1 ho
    cases m with
    | none =>
      simp only [exec, Option.some.injEq] at h
      subst h
      simp only [Outcome.object, Option.some.injEq] at ho
      subst ho
      exact Or.inl rfl
    | some t =>
      simp only [exec, Option.some.injEq] at h
      subst h
      simp [Outcome.object] at ho
  | Restart =>
    intro m y p o h p1 ho
    cases m with
    | none =>
      simp only [exec, Option.some.injEq] at h
      subst h
      simp only [Outcome.object, Option.some.injEq] at ho
      subst ho
      exact Or.inr (Or.inl rfl)
    | some t =>
      simp only [exec, Option.some.injEq] at h
      subst h
      simp [Outcome.object] at ho
  | Stop =>
    intro m y p o h p1 ho
    cases m with
    | none =>
      simp only [exec, Option.some.injEq] at h
      subst h
      simp only [Outcome.object, Option.some.injEq] at ho
      subst ho
      exact Or.inr (Or.inr (Or.inl rfl))
    | some t =>
      simp only [exec, Option.some.injEq] at h
      subst h
      simp [Outcome.object] at ho
  | seq a b iha ihb =>
    intro m y p o h p1 ho
    cases m with
    | none =>
      simp only [exec] at h
      cases ha : exec fuel a none y p with
      | none => simp [ha] at h
      | some oa =>
        cases oa with
        | next y2 p2 =>
          simp only [ha] at h
          have hstart : PosFrom fuel (.seq a b) none y p p2._ptLine :=
            PosFrom.mono rfl (fun l hl => Records.seqFirst hl) (iha none y p _ ha p2 rfl)
          exact PosFrom.chain hstart (fun l hl => Records.seqSecond ha hl)
            (ihb none y2 p2 o h p1 ho)
        | returned r p2 =>
          simp only [ha, Option.some.injEq] at h
          subst h
          exact PosFrom.mono rfl (fun l hl => Records.seqFirst hl) (iha none y p _ ha p1 ho)
        | seeking =>
          simp only [ha, Option.some.injEq] at h
          subst h
          simp [Outcome.object] at ho
    | some t =>
      simp only [exec] at h
      cases ha : exec fuel a (some t) y p with
      | none => simp [ha] at h
      | some oa =>
        cases oa with
        | next y2 p2 =>
          simp only [ha] at h
          have hstart : PosFrom fuel (.seq a b) (some t) y p p2._ptLine :=
            PosFrom.mono rfl (fun l hl => Records.seqFirst hl) (iha (some t) y p _ ha p2 rfl)
          exact PosFrom.chain hstart (fun l hl => Records.seqSecond ha hl)
            (ihb none y2 p2 o h p1 ho)
        | returned r p2 =>
          simp only [ha, Option.some.injEq] at h
          subst h
          exact PosFrom.mono rfl (fun l hl => Records.seqFirst hl)
            (iha (some t) y p _ ha p1 ho)
        | seeking =>
          simp only [ha] at h
          exact PosFrom.mono rfl (fun l hl => Records.seqSeek ha hl)
            (ihb (some t) y p o h p1 ho)
  | ite e a b iha ihb =>
    intro m y p o h p1 ho
    cases m with
    | none =>
      simp only [exec] at h
      cases he : e.eval y p.fields with
      | none => simp [he] at h
      | some v =>
        obtain ⟨v, s1⟩ := v
        cases v with
        | true =>
          simp only [he] at h
          have hp : ({ p with fields := s1 } : Protothread σ)._ptLine = p._ptLine := rfl
          exact PosFrom.mono hp (fun l hl => Records.iteTrue he hl)
            (iha none y _ o h p1 ho)
        | false =>
          simp only [he] at h
          have hp : ({ p with fields := s1 } : Protothread σ)._ptLine = p._ptLine := rfl
          exact PosFrom.mono hp (fun l hl => Records.iteFalse he hl)
            (ihb none y _ o h p1 ho)
    | some t =>
      simp only [exec] at h
      cases ha : exec fuel a (some t) y p with
      | none => simp [ha] at h
      | some oa =>
        cases oa with
        | next y2 p2 =>
          simp only [ha, Option.some.injEq] at h
          subst h
          exact PosFrom.mono rfl (fun l hl => Records.iteSeekFirst hl)
            (iha (some t) y p _ ha p1 ho)
        | returned r p2 =>
          simp only [ha, Option.some.injEq] at h
          subst h
          exact PosFrom.mono rfl (fun l hl => Records.iteSeekFirst hl)
            (iha (some t) y p _ ha p1 ho)
        | seeking =>
          simp only [ha] at h
          exact PosFrom.mono rfl (fun l hl => Records.iteSeekSecond ha hl)
            (ihb (some t) y p o h p1 ho)
  | whileDo e s ih =>
    intro m y p o h p1 ho
    have hw := whileFrom_position fuel e s (fun y p o h => ih none y p o h)
    cases m with
    | none =>
      simp only [exec] at h
      exact hw fuel y p o h p1 ho
    | some t =>
      simp only [exec] at h
      cases hs : exec fuel s (some t) y p with
      | none => simp [hs] at h
      | some os =>
        cases os with
        | next y2 p2 =>
          simp only [hs] at h
          have hstart : PosFrom fuel (.whileDo e s) (some t) y p p2._ptLine :=
            PosFrom.mono rfl (fun l hl => Records.whileSeek hl) (ih (some t) y p _ hs p2 rfl)
          exact PosFrom.chain hstart (fun l hl => Records.whileSeekLater hs hl)
            (hw fuel y2 p2 o h p1 ho)
        | returned r p2 =>
          simp only [hs, Option.some.injEq] at h
          subst h
          exact PosFrom.mono rfl (fun l hl => Records.whileSeek hl)
            (ih (some t) y p _ hs p1 ho)
        | seeking =>
          simp only [hs, Option.some.injEq] at h
          subst h
          simp [Outcome.object] at ho

end Positions

section Observed

variable {σ : Type}

theorem Records_mem_assigned {fuel : Nat} {s : Stmt σ} {m : Option Nat} {y : Bool}
    {p : Protothread σ} {l : Nat} (h : Records fuel s m y p l) : l ∈ s.assigned := by
  induction h with
  | assign l y p => simp [Stmt.assigned]
  | seqFirst _ ih => simp [Stmt.assigned, ih]
  | seqSecond _ _ ih => simp [Stmt.assigned, ih]
  | seqSeek _ _ ih => simp [Stmt.assigned, ih]
  | iteTrue _ _ ih => simp [Stmt.assigned, ih]
  | iteFalse _ _ ih => simp [Stmt.assigned, ih]
  | iteSeekFirst _ ih => simp [Stmt.assigned, ih]
  | iteSeekSecond _ _ ih => simp [Stmt.assigned, ih]
  | whileTurn _ _ ih => simpa [Stmt.assigned] using ih
  | whileLater _ _ _ ih => exact ih
  | whileSeek _ ih => simpa [Stmt.assigned] using ih
  | whileSeekLater _ _ ih => exact ih

/-- The lines assigned to `_ptLine` in a body are the lines of its suspension points. -/
theorem assigned_expand (b : Body σ) : b.expand.assigned = b.lines := by
  induction b with
  | seq a b iha ihb => simp [Body.expand, Body.lines, Stmt.assigned, iha, ihb]
  | ite c a b iha ihb => simp [Body.expand, Body.lines, Stmt.assigned, iha, ihb]
  | whileDo c s ih => simp [Body.expand, Body.lines, Stmt.assigned, ih]
  | _ =>
    simp [Body.expand, Body.lines, Stmt.assigned, PT_WAIT_UNTIL, PT_WAIT_WHILE, PT_WAIT_THREAD,
      PT_SPAWN, PT_RESTART, PT_EXIT, PT_YIELD, PT_YIELD_UNTIL, doWhile0, ifReturn]

theorem Reaches_mem_lines {fuel : Nat} {body : Body σ} {p : Protothread σ} {l : Nat}
    (h : body.Reaches fuel p l) : l ∈ body.lines := by
  have := Records_mem_assigned h
  simpa [PT_BEGIN, Stmt.assigned, assigned_expand] using this

/-- The position after a call of `Run()`: the one before the call, 0, `LineNumberInvalid`, or
the value stored by a suspension point of the body that the call reached. -/
theorem Run_position (fuel : Nat) (body : Body σ) (p p1 : Protothread σ) (r : Bool)
    (h : body.Run fuel p = some (r, p1)) :
    p1._ptLine = p._ptLine ∨ p1._ptLine = 0 ∨ p1._ptLine = LineNumberInvalid ∨
      ∃ l, body.Reaches fuel p l ∧ p1._ptLine = l % LineNumberSize := by
  simp only [Body.Run, Protothread.Run] at h
  cases hx : exec fuel (PT_BEGIN body.expand) (some p._ptLine) true p with
  | none => simp [hx, PT_END] at h
  | some o =>
    cases o with
    | next y1 p2 =>
      simp only [hx, PT_END, Option.some.injEq, Prod.mk.injEq] at h
      obtain ⟨-, rfl⟩ := h
      exact Or.inr (Or.inr (Or.inl rfl))
    | returned r2 p2 =>
      simp only [hx, PT_END, Option.some.injEq, Prod.mk.injEq] at h
      obtain ⟨-, rfl⟩ := h
      exact exec_position fuel _ _ _ _ _ hx p2 rfl
    | seeking =>
      simp only [hx, PT_END, Option.some.injEq, Prod.mk.injEq] at h
      obtain ⟨-, rfl⟩ := h
      exact Or.inr (Or.inr (Or.inl rfl))

end Observed

/-- C12.  Let `p` be an object observed between operations: the state reached from a newly
constructed object by any finite sequence of calls of `Run()` of `body`, `Restart()` and
`Stop()`, the environment changing the fields at will in between (so for any values of the
conditions).  Then `_ptLine` is 0, or `LineNumberInvalid`, or the value `l % 65536` stored by
a suspension point of `body`, on a line `l`, that a call of `Run()` of the sequence reached
(executing its `_ptLine = __LINE__;`).  In a well-formed body that value is the line `l`
itself. -/
theorem observable_positions {σ : Type} (body : Body σ) (p : Protothread σ)
    (h : Observable body p) :
    (p._ptLine = 0 ∨ p._ptLine = LineNumberInvalid ∨
      ∃ l ∈ body.lines, p._ptLine = l % LineNumberSize ∧
        ∃ (fuel : Nat) (q : Protothread σ), Observable body q ∧ body.Reaches fuel q l) ∧
    (body.WellFormed →
      p._ptLine = 0 ∨ p._ptLine = LineNumberInvalid ∨
        (p._ptLine ∈ body.lines ∧
          ∃ (fuel : Nat) (q : Protothread σ),
            Observable body q ∧ body.Reaches fuel q p._ptLine)) := by
  have main : p._ptLine = 0 ∨ p._ptLine = LineNumberInvalid ∨
      ∃ l ∈ body.lines, p._ptLine = l % LineNumberSize ∧
        ∃ (fuel : Nat) (q : Protothread σ), Observable body q ∧ body.Reaches fuel q l := by
    induction h with
    | construct s => exact Or.inl rfl
    | step fuel hq hrun ih =>
      rename_i q q1 r
      rcases Run_position fuel body q q1 r hrun with hpos | hpos | hpos | ⟨l, hl, hpos⟩
      · rw [hpos]; exact ih
      · exact Or.inl hpos
      · exact Or.inr (Or.inl hpos)
      · exact Or.inr (Or.inr ⟨l, Reaches_mem_lines hl, hpos, fuel, q, hq, hl⟩)
    | restart _ _ => exact Or.inl rfl
    | stop _ _ => exact Or.inr (Or.inl rfl)
    | env f _ ih => exact ih
  refine ⟨main, fun hwf => ?_⟩
  rcases main with h0 | h1 | ⟨l, hl, hpos, hreach⟩
  · exact Or.inl h0
  · exact Or.inr (Or.inl h1)
  · have hmod := line_mod_of_lt (hwf.2 l hl).2
    rw [hmod] at hpos
    rw [hpos]
    exact Or.inr (Or.inr ⟨hl, hreach⟩)

/-- Witness of C12: `sampleWait` after one call of `Run()` with the flag cleared is observed
at position 7, the line of its wait. -/
theorem observable_positions_witness :
    Observable sampleWait ⟨7, (false, 1)⟩ ∧
    ((7 : Nat) = 0 ∨ 7 = LineNumberInvalid ∨
      ∃ l ∈ sampleWait.lines, 7 = l % LineNumberSize ∧
        ∃ (fuel : Nat) (q : Protothread (Bool × Nat)),
          Observable sampleWait q ∧ sampleWait.Reaches fuel q l) :=
  ⟨Observable.step 0 (Observable.construct (false, 0))
      (by decide : sampleWait.Run 0 (Protothread.construct (false, 0))
        = some (true, ⟨7, (false, 1)⟩)),
    (observable_positions sampleWait ⟨7, (false, 1)⟩
      (Observable.step 0 (Observable.construct (false, 0))
        (by decide : sampleWait.Run 0 (Protothread.construct (false, 0))
          = some (true, ⟨7, (false, 1)⟩)))).1⟩

/-! ## C13: a wait whose condition holds when it is reached -/

/-- C13.  Let `PT_WAIT_UNTIL(cond)` be reached (control arrives at it with any value `y` of
`ptYielded` and any object `p`) while `cond` is true.  The statement does not return: control
reaches its end in the same call, `_ptLine` having been set to the value `l % 65536` stored
for its line, and the fields being those left by the one evaluation of `cond`.  At any place
`c` the execution goes on with what comes after the place; and for a body `pre W post` called
with position 0, `pre` running to its end, `Run()` goes on with `post` in the same call.  The
same holds for `PT_WAIT_WHILE(cond)` reached while `cond` is false, and `PT_WAIT_WHILE(cond)` is
`PT_WAIT_UNTIL` of the negated condition. -/
theorem wait_passes_when_true {σ : Type} (fuel : Nat) (c : Ctx σ) (l : Nat)
    (cond : σ → Option (Bool × σ)) (y : Bool) (p : Protothread σ) (s1 : σ) :
    (cond p.fields = some (true, s1) →
      exec fuel (Body.PT_WAIT_UNTIL l cond).expand none y p
        = some (.next y ⟨l % LineNumberSize, s1⟩) ∧
      c.after fuel (.PT_WAIT_UNTIL l cond)
          (exec fuel (Body.PT_WAIT_UNTIL l cond).expand none y p)
        = c.after fuel (.PT_WAIT_UNTIL l cond) (some (.next y ⟨l % LineNumberSize, s1⟩)) ∧
      ∀ (pre post : Body σ) (p0 : Protothread σ), p0._ptLine = 0 →
        exec fuel pre.expand none true p0 = some (.next y p) →
        (Body.seq pre (.seq (.PT_WAIT_UNTIL l cond) post)).Run fuel p0
          = PT_END p0 (exec fuel post.expand none y ⟨l % LineNumberSize, s1⟩)) ∧
    (cond p.fields = some (false, s1) →
      exec fuel (Body.PT_WAIT_WHILE l cond).expand none y p
        = some (.next y ⟨l % LineNumberSize, s1⟩) ∧
      c.after fuel (.PT_WAIT_WHILE l cond)
          (exec fuel (Body.PT_WAIT_WHILE l cond).expand none y p)
        = c.after fuel (.PT_WAIT_WHILE l cond) (some (.next y ⟨l % LineNumberSize, s1⟩)) ∧
      ∀ (pre post : Body σ) (p0 : Protothread σ), p0._ptLine = 0 →
        exec fuel pre.expand none true p0 = some (.next y p) →
        (Body.seq pre (.seq (.PT_WAIT_WHILE l cond) post)).Run fuel p0
          = PT_END p0 (exec fuel post.expand none y ⟨l % LineNumberSize, s1⟩)) ∧
    (Body.PT_WAIT_WHILE l cond).expand = PT_WAIT_UNTIL l (.not (.member cond)) ∧
    (∀ (m : Option Nat),
      exec fuel (Body.PT_WAIT_WHILE l cond).expand m y p
        = exec fuel (Body.PT_WAIT_UNTIL l fun s =>
            match cond s with
            | none => none
            | some (v, s2) => some (!v, s2)).expand m y p) := by
  refine ⟨?_, ?_, rfl, ?_⟩
  · intro hcond
    have hx : exec fuel (Body.PT_WAIT_UNTIL l cond).expand none y p
        = some (.next y ⟨l % LineNumberSize, s1⟩) := by
      rw [exec_wait_until_run, hcond]
    refine ⟨hx, by rw [hx], ?_⟩
    intro pre post p0 hp0 hpre
    rw [Run_of_zero fuel _ _ hp0, exec_seq_run, hpre]
    simp only []
    rw [exec_seq_run, hx]
  · intro hcond
    have hx : exec fuel (Body.PT_WAIT_WHILE l cond).expand none y p
        = some (.next y ⟨l % LineNumberSize, s1⟩) := by
      rw [exec_wait_while_run, hcond]
    refine ⟨hx, by rw [hx], ?_⟩
    intro pre post p0 hp0 hpre
    rw [Run_of_zero fuel _ _ hp0, exec_seq_run, hpre]
    simp only []
    rw [exec_seq_run, hx]
  · intro m
    cases m with
    | none =>
      rw [exec_wait_while_run, exec_wait_until_run]
      cases hc : cond p.fields with
      | none => rfl
      | some v =>
        obtain ⟨v, s2⟩ := v
        cases v <;> rfl
    | some t =>
      rw [exec_wait_while_seek, exec_wait_until_seek]
      by_cases ht : l = t
      · simp only [ht, if_true]
        cases hc : cond p.fields with
        | none => rfl
        | some v =>
          obtain ⟨v, s2⟩ := v
          cases v <;> rfl
      · simp [ht]

/-- Witness of C13: `sampleWait` called for the first time with the flag set runs through its
wait on line 7 and ends in the same call; both statements around the wait were executed. -/
theorem wait_passes_when_true_witness :
    exec 0 (Body.PT_WAIT_UNTIL 7 fun (s : Bool × Nat) => some (s.1, s)).expand none true
        ⟨0, (true, 1)⟩
      = some (.next true ⟨7 % LineNumberSize, (true, 1)⟩) ∧
    (Body.seq (.stmt fun (s : Bool × Nat) => (s.1, s.2 + 1))
        (.seq (.PT_WAIT_UNTIL 7 fun s => some (s.1, s))
          (.stmt fun s => (s.1, s.2 + 10)))).Run 0 ⟨0, (true, 0)⟩
      = some (false, ⟨LineNumberInvalid, (true, 11)⟩) :=
  ⟨((wait_passes_when_true 0 .hole 7 (fun (s : Bool × Nat) => some (s.1, s)) true
      ⟨0, (true, 1)⟩ (true, 1)).1 rfl).1,
    ((wait_passes_when_true 0 .hole 7 (fun (s : Bool × Nat) => some (s.1, s)) true
      ⟨0, (true, 1)⟩ (true, 1)).1 rfl).2.2
      (.stmt fun s => (s.1, s.2 + 1)) (.stmt fun s => (s.1, s.2 + 10)) ⟨0, (true, 0)⟩ rfl rfl⟩

/-! ## C14: `PT_RESTART` -/

/-- C14.  Let `PT_RESTART()` be reached at any place `c` of any body, control arriving with
any value `y` of `ptYielded` and any object `p`.  The statement sets the position to 0 and
returns true, the fields being left as they are; nothing of what comes after the place is
executed and the body is not entered again in that call: `Run()` returns true with the object
`p.Restart`.  The next call of `Run()`, having position 0, executes the body from its first
statement.  For a body `pre PT_RESTART(); post` called with position 0, `pre` running to its
end: `Run()` returns true with position 0 and the fields left by `pre`, and the next call
executes `pre` again from those fields. -/
theorem restart_self_point {σ : Type} (fuel : Nat) (c : Ctx σ) (y : Bool)
    (p p0 : Protothread σ) :
    exec fuel (Body.PT_RESTART : Body σ).expand none y p = some (.returned true p.Restart) ∧
    p.Restart._ptLine = 0 ∧ p.Restart.fields = p.fields ∧
    PT_END p0 (c.after fuel .PT_RESTART (exec fuel (Body.PT_RESTART : Body σ).expand none y p))
      = some (true, p.Restart) ∧
    (c.fill .PT_RESTART).Run fuel p.Restart
      = PT_END p.Restart (exec fuel (c.fill .PT_RESTART).expand none true p.Restart) ∧
    (∀ (pre post : Body σ), p0._ptLine = 0 →
      exec fuel pre.expand none true p0 = some (.next y p) →
      (Body.seq pre (.seq .PT_RESTART post)).Run fuel p0 = some (true, ⟨0, p.fields⟩) ∧
      (Body.seq pre (.seq .PT_RESTART post)).Run fuel ⟨0, p.fields⟩
        = PT_END ⟨0, p.fields⟩
            (exec fuel (Body.seq pre (.seq .PT_RESTART post)).expand none true
              ⟨0, p.fields⟩)) := by
  have hx := exec_restart_run fuel y p
  refine ⟨hx, rfl, rfl, ?_, Run_of_zero fuel _ _ rfl, ?_⟩
  · rw [hx, after_returned]; rfl
  · intro pre post hp0 hpre
    refine ⟨?_, Run_of_zero fuel _ _ rfl⟩
    rw [Run_of_zero fuel _ _ hp0, exec_seq_run, hpre]
    simp only []
    rw [exec_seq_run, hx]
    rfl

/-- Witness of C14: `count += 1; PT_RESTART(); count += 10;` called twice from a new object
returns true both times with position 0; the count goes 0, 1, 2. -/
theorem restart_self_point_witness :
    (Body.seq (.stmt fun (s : Nat) => s + 1) (.seq .PT_RESTART (.stmt fun s => s + 10))).Run 0
        ⟨0, 0⟩ = some (true, ⟨0, 1⟩) ∧
    (Body.seq (.stmt fun (s : Nat) => s + 1) (.seq .PT_RESTART (.stmt fun s => s + 10))).Run 0
        ⟨0, 1⟩ = some (true, ⟨0, 2⟩) :=
  ⟨((restart_self_point 0 .hole true ⟨0, 1⟩ ⟨0, 0⟩).2.2.2.2.2 (.stmt fun s => s + 1)
      (.stmt fun s => s + 10) rfl (by decide)).1,
    ((restart_self_point 0 .hole true ⟨0, 2⟩ ⟨0, 1⟩).2.2.2.2.2 (.stmt fun s => s + 1)
      (.stmt fun s => s + 10) rfl (by decide)).1⟩

/-! ## C15: `PT_EXIT` and `PT_END` -/

/-- C15.  Let `PT_EXIT()` be reached at any place `c` of any body, control arriving with any
value `y` of `ptYielded` and any object `p`: the statement sets the position to
`LineNumberInvalid` and returns false, nothing of what comes after the place is executed, and
`Run()` returns false with the object `p.Stop`.  And whenever the statements between
`PT_BEGIN` and `PT_END` run to their end without returning, from the beginning of the body or
from the label control was transferred to, leaving the object `p1`, the call of `Run()`
returns false with the position `LineNumberInvalid` and the fields of `p1`. -/
theorem exit_and_end {σ : Type} (fuel : Nat) (c : Ctx σ) (y : Bool) (p p0 : Protothread σ) :
    (exec fuel (Body.PT_EXIT : Body σ).expand none y p = some (.returned false p.Stop) ∧
      p.Stop._ptLine = LineNumberInvalid ∧ p.Stop.IsRunning = false ∧
      PT_END p0 (c.after fuel .PT_EXIT (exec fuel (Body.PT_EXIT : Body σ).expand none y p))
        = some (false, p.Stop)) ∧
    (∀ (pre post : Body σ), p0._ptLine = 0 →
      exec fuel pre.expand none true p0 = some (.next y p) →
      (Body.seq pre (.seq .PT_EXIT post)).Run fuel p0
        = some (false, ⟨LineNumberInvalid, p.fields⟩)) ∧
    (∀ (body : Body σ) (y1 : Bool) (p1 : Protothread σ),
      exec fuel (PT_BEGIN body.expand) (some p0._ptLine) true p0 = some (.next y1 p1) →
      body.Run fuel p0 = some (false, ⟨LineNumberInvalid, p1.fields⟩) ∧
      Protothread.IsRunning ⟨LineNumberInvalid, p1.fields⟩ = false) ∧
    (∀ (body : Body σ) (y1 : Bool) (p1 : Protothread σ), p0._ptLine = 0 →
      exec fuel body.expand none true p0 = some (.next y1 p1) →
      body.Run fuel p0 = some (false, ⟨LineNumberInvalid, p1.fields⟩)) := by
  have hx := exec_exit_run fuel y p
  refine ⟨⟨hx, rfl, IsRunning_Stop p, ?_⟩, ?_, ?_, ?_⟩
  · rw [hx, after_returned]; rfl
  · intro pre post hp0 hpre
    rw [Run_of_zero fuel _ _ hp0, exec_seq_run, hpre]
    simp only []
    rw [exec_seq_run, hx]
    rfl
  · intro body y1 p1 hrun
    refine ⟨?_, by simp [Protothread.IsRunning]⟩
    simp only [Body.Run, Protothread.Run, hrun]
    rfl
  · intro body y1 p1 hp0 hrun
    rw [Run_of_zero fuel _ _ hp0, hrun]
    rfl

/-- Witness of C15: `count += 1; PT_EXIT(); count += 10;` and `count += 1; count += 10;`
called from a new object. -/
theorem exit_and_end_witness :
    (Body.seq (.stmt fun (s : Nat) => s + 1) (.seq .PT_EXIT (.stmt fun s => s + 10))).Run 0
        ⟨0, 0⟩ = some (false, ⟨LineNumberInvalid, 1⟩) ∧
    (Body.seq (.stmt fun (s : Nat) => s + 1) (.stmt fun s => s + 10)).Run 0 ⟨0, 0⟩
      = some (false, ⟨LineNumberInvalid, 11⟩) :=
  ⟨(exit_and_end 0 .hole true ⟨0, 1⟩ ⟨0, 0⟩).2.1 (.stmt fun s => s + 1)
      (.stmt fun s => s + 10) rfl (by decide),
    (exit_and_end 0 .hole true ⟨0, 1⟩ ⟨0, 0⟩).2.2.2
      (Body.seq (.stmt fun (s : Nat) => s + 1) (.stmt fun s => s + 10)) true ⟨0, 11⟩ rfl
      (by decide)⟩

/-! ## C16: `Restart()` changes the position only -/

/-- C16.  `Restart()` sets `_ptLine` to 0 and does nothing else: it is defined without the
body, so no statement of the body is executed, and it leaves the fields as they are.  When the
fields are a child protothread and further fields, the child (its position and its fields) and
the further fields are unchanged.  So a restarted parent whose body begins with
`PT_WAIT_THREAD(child);` calls the child's `Run()` on the child as it was: the child's `Run()`
is entered at the child's recorded position, when that is not 0, and not at the beginning of
the child's body; the parent returns true when the child does and goes on with what follows
when it returns false. -/
theorem restart_frame {τ ρ : Type} (fuel fc : Nat) (p : Protothread (Protothread τ × ρ))
    (l : Nat) (cb : Body τ) (post : Body (Protothread τ × ρ)) :
    p.Restart = ⟨0, p.fields⟩ ∧ p.Restart.fields = p.fields ∧
    p.Restart.fields.1 = p.fields.1 ∧ p.Restart.fields.1._ptLine = p.fields.1._ptLine ∧
    p.Restart.fields.2 = p.fields.2 ∧
    (Body.seq (.PT_WAIT_THREAD l (Child.member (cb.Run fc))) post).Run fuel p.Restart
      = (match cb.Run fc p.fields.1 with
        | none => none
        | some (true, ch) => some (true, ⟨l % LineNumberSize, (ch, p.fields.2)⟩)
        | some (false, ch) =>
          PT_END p.Restart
            (exec fuel post.expand none true ⟨l % LineNumberSize, (ch, p.fields.2)⟩)) ∧
    (0 < p.fields.1._ptLine →
      cb.Run fc p.fields.1
        = PT_END p.fields.1 (exec fc cb.expand (some p.fields.1._ptLine) true p.fields.1)) := by
  refine ⟨rfl, rfl, rfl, rfl, rfl, ?_, fun h => Run_of_pos fc cb _ h⟩
  rw [Run_of_zero fuel _ _ rfl, exec_seq_run, exec_wait_thread_run]
  simp only [Child.member, Protothread.Restart]
  cases hr : cb.Run fc p.fields.1 with
  | none => rfl
  | some v =>
    obtain ⟨v, ch⟩ := v
    cases v <;> rfl

/-- Witness of C16: the parent `PT_WAIT_THREAD(child);` (line 6) is restarted while its child,
three yields on lines 3, 4 and 5, is at its second yield; the next call of the parent's
`Run()` moves the child on to its third yield. -/
theorem restart_frame_witness :
    (0 : Nat) < 4 ∧
    (Body.seq (.PT_WAIT_THREAD 6 (Child.member ((yields [3, 4, 5]).Run 0))) .skip).Run 0
        (Protothread.Restart (⟨6, (⟨4, 0⟩, ())⟩ : Protothread (Protothread Nat × Unit)))
      = some (true, ⟨6, (⟨5, 0⟩, ())⟩) ∧
    (yields [3, 4, 5]).Run 0 (⟨4, 0⟩ : Protothread Nat)
      = PT_END ⟨4, 0⟩ (exec 0 (yields [3, 4, 5]).expand (some 4) true ⟨4, 0⟩) :=
  ⟨by decide,
    (restart_frame 0 0 (⟨6, (⟨4, 0⟩, ())⟩ : Protothread (Protothread Nat × Unit)) 6
      (yields [3, 4, 5]) .skip).2.2.2.2.2.1,
    (restart_frame 0 0 (⟨6, (⟨4, 0⟩, ())⟩ : Protothread (Protothread Nat × Unit)) 6
      (yields [3, 4, 5]) .skip).2.2.2.2.2.2 (by decide)⟩

/-! ## C17: when `PT_YIELD_UNTIL` evaluates its condition -/

/-- C17.  Let `PT_YIELD_UNTIL(cond)` stand on line `l`.

* Reached (control arrives with any value `y` of `ptYielded` and any object `p`): the
  statement returns true and the fields are unchanged, for every `cond`: also for one with an
  effect, such as a child's `Run()`, and for one whose evaluation would not return.  The
  condition is not evaluated.
* Control transferred to its label by a call of `Run()` (`ptYielded` is true): the outcome is
  given by one evaluation of `cond` on the fields at entry, and the fields afterwards are
  those left by that evaluation.
* At any place `c` of a well-formed body, a call of `Run()` with position `l` does not return
  when `cond` does not, returns true with the fields left by the one evaluation when `cond` is
  false, and goes on after the place from those fields when `cond` is true. -/
theorem yield_until_evaluation {σ : Type} (fuel : Nat) (c : Ctx σ) (l : Nat)
    (cond : σ → Option (Bool × σ)) :
    (∀ (y : Bool) (p : Protothread σ),
      exec fuel (Body.PT_YIELD_UNTIL l cond).expand none y p
        = some (.returned true ⟨l % LineNumberSize, p.fields⟩)) ∧
    (∀ (y : Bool) (p : Protothread σ) (child : Child σ),
      exec fuel (Body.PT_YIELD_UNTIL l child.Run).expand none y p
        = some (.returned true ⟨l % LineNumberSize, p.fields⟩)) ∧
    (∀ (y : Bool) (p : Protothread σ),
      exec fuel (Body.PT_YIELD_UNTIL l fun _ => none).expand none y p
        = some (.returned true ⟨l % LineNumberSize, p.fields⟩)) ∧
    (∀ (p : Protothread σ),
      exec fuel (Body.PT_YIELD_UNTIL l cond).expand (some l) true p
        = match cond p.fields with
          | none => none
          | some (true, s1) => some (.next true ⟨p._ptLine, s1⟩)
          | some (false, s1) => some (.returned true ⟨p._ptLine, s1⟩)) ∧
    ((c.fill (.PT_YIELD_UNTIL l cond)).WellFormed →
      ∀ (p : Protothread σ), p._ptLine = l →
        (c.fill (.PT_YIELD_UNTIL l cond)).Run fuel p
          = match cond p.fields with
            | none => none
            | some (true, s1) =>
              PT_END p (c.after fuel (.PT_YIELD_UNTIL l cond) (some (.next true ⟨l, s1⟩)))
            | some (false, s1) => some (true, ⟨l, s1⟩)) := by
  refine ⟨fun y p => exec_yield_until_run fuel l cond y p,
    fun y p child => exec_yield_until_run fuel l child.Run y p,
    fun y p => exec_yield_until_run fuel l _ y p, ?_, ?_⟩
  · intro p
    rw [exec_yield_until_seek, if_pos rfl, if_pos rfl]
  · intro hwf p hp
    obtain ⟨hc, h0, hlt⟩ := wf_at_place hwf (l := l) (by simp [Body.lines])
    subst hp
    rw [Run_at_place fuel c _ p h0 hc, exec_yield_until_seek, if_pos rfl, if_pos rfl]
    cases hcond : cond p.fields with
    | none => simp only [after_none]; rfl
    | some v =>
      obtain ⟨v, s1⟩ := v
      cases v with
      | true => rfl
      | false => simp only [after_returned]; rfl

/-- Witness of C17: the condition reads a flag and counts its evaluations.  The first call of
`PT_YIELD_UNTIL(cond);` (line 9), the flag being set, returns true with the count still 0;
the second call evaluates the condition once (count 1) and ends the body. -/
theorem yield_until_evaluation_witness :
    ((Ctx.hole : Ctx (Bool × Nat)).fill
        (.PT_YIELD_UNTIL 9 fun s => some (s.1, (s.1, s.2 + 1)))).WellFormed ∧
    exec 0 (Body.PT_YIELD_UNTIL 9 fun (s : Bool × Nat) => some (s.1, (s.1, s.2 + 1))).expand
        none true ⟨0, (true, 0)⟩
      = some (.returned true ⟨9 % LineNumberSize, (true, 0)⟩) ∧
    ((Ctx.hole : Ctx (Bool × Nat)).fill
        (.PT_YIELD_UNTIL 9 fun s => some (s.1, (s.1, s.2 + 1)))).Run 0 ⟨9, (true, 0)⟩
      = some (false, ⟨LineNumberInvalid, (true, 1)⟩) :=
  ⟨by decide,
    (yield_until_evaluation 0 (Ctx.hole : Ctx (Bool × Nat)) 9
      (fun s => some (s.1, (s.1, s.2 + 1)))).1 true ⟨0, (true, 0)⟩,
    (yield_until_evaluation 0 (Ctx.hole : Ctx (Bool × Nat)) 9
      (fun s => some (s.1, (s.1, s.2 + 1)))).2.2.2.2 (by decide) ⟨9, (true, 0)⟩ rfl⟩

/-! ## C18: a yield inside a loop -/

section Loop

variable {τ : Type}

theorem RunEach_append {σ : Type} (fuel : Nat) (body : Body σ) :
    ∀ (es1 es2 : List (σ → σ)) (p p1 : Protothread σ) (rs : List Bool),
      RunEach fuel body es1 p = some (rs, p1) →
      RunEach fuel body (es1 ++ es2) p =
        match RunEach fuel body es2 p1 with
        | none => none
        | some (rs2, p2) => some (rs ++ rs2, p2) := by
  intro es1
  induction es1 with
  | nil =>
    intro es2 p p1 rs h
    simp only [RunEach, Option.some.injEq, Prod.mk.injEq] at h
    obtain ⟨rfl, rfl⟩ := h
    cases hr : RunEach fuel body es2 p with
    | none => simp [hr]
    | some v => simp [hr]
  | cons e es1 ih =>
    intro es2 p p1 rs h
    simp only [List.cons_append, RunEach] at h ⊢
    cases hrun : body.Run fuel { p with fields := e p.fields } with
    | none => simp [hrun] at h
    | some v =>
      obtain ⟨r, q⟩ := v
      simp only [hrun] at h ⊢
      cases hrest : RunEach fuel body es1 q with
      | none => simp [hrest] at h
      | some w =>
        obtain ⟨rs1, q1⟩ := w
        simp only [hrest, Option.some.injEq, Prod.mk.injEq] at h
        obtain ⟨rfl, rfl⟩ := h
        have hih := ih es2 q q1 rs1 hrest
        simp only [List.append_eq] at hih ⊢
        rw [hih]
        cases hr2 : RunEach fuel body es2 q1 with
        | none => rfl
        | some v2 => rfl

theorem workDone_succ (work : Nat → τ → τ) (k : Nat) (t : τ) :
    workDone work (k + 1) t = work k (workDone work k t) := by
  simp [workDone, List.range_succ, List.foldl_append]

/-- The first call: the loop is entered when `0 < n`, and `work(0)` is executed before the
yield returns. -/
theorem Run_forYield_start (fuel n l : Nat) (work : Nat → τ → τ) (hl : l < LineNumberSize)
    (i0 : Nat) (t : τ) :
    (forYield n l work).Run (fuel + 1) ⟨0, (i0, t)⟩ =
      if 0 < n then some (true, ⟨l, (0, work 0 t)⟩)
      else some (false, ⟨LineNumberInvalid, (0, t)⟩) := by
  have hmod := line_mod_of_lt_size hl
  rw [Run_of_zero _ _ _ rfl]
  by_cases hn : 0 < n
  · simp [forYield, Body.expand, exec, whileFrom, Expr.eval, PT_YIELD, doWhile0, ifReturn,
      hn, hmod, PT_END]
  · simp [forYield, Body.expand, exec, whileFrom, Expr.eval, hn, PT_END, Protothread.Stop]

/-- A call that resumes at the yield with the counter at `i`: the counter is incremented, and
when it is still below `n` one more `work` is executed before the yield returns again. -/
theorem Run_forYield_resume (fuel n l : Nat) (work : Nat → τ → τ) (h0 : 0 < l)
    (hl : l < LineNumberSize) (i : Nat) (t : τ) :
    (forYield n l work).Run (fuel + 1) ⟨l, (i, t)⟩ =
      if i + 1 < n then some (true, ⟨l, (i + 1, work (i + 1) t)⟩)
      else some (false, ⟨LineNumberInvalid, (i + 1, t)⟩) := by
  have hmod := line_mod_of_lt_size hl
  rw [Run_of_pos _ _ _ h0]
  by_cases hn : i + 1 < n
  · simp [forYield, Body.expand, exec, whileFrom, Expr.eval, PT_YIELD, doWhile0, ifReturn,
      hn, hmod, PT_END]
  · simp [forYield, Body.expand, exec, whileFrom, Expr.eval, PT_YIELD, doWhile0, ifReturn,
      hn, PT_END, Protothread.Stop]

theorem RunEach_forYield_resume (fuel n l : Nat) (work : Nat → τ → τ) (h0 : 0 < l)
    (hl : l < LineNumberSize) :
    ∀ (m k : Nat) (t : τ), k + 1 + m ≤ n →
      RunEach (fuel + 1) (forYield n l work) (List.replicate m id)
          ⟨l, (k, workDone work (k + 1) t)⟩
        = some (List.replicate m true, ⟨l, (k + m, workDone work (k + m + 1) t)⟩) := by
  intro m
  induction m with
  | zero => intro k t _; rfl
  | succ m ih =>
    intro k t hk
    have hlt : k + 1 < n := by omega
    have hstep := Run_forYield_resume fuel n l work h0 hl k (workDone work (k + 1) t)
    rw [if_pos hlt, ← workDone_succ work (k + 1) t] at hstep
    have hrest := ih (k + 1) t (by omega)
    simp only [List.replicate_succ, RunEach, id_eq, hstep, hrest]
    have e1 : k + 1 + m = k + (m + 1) := by omega
    rw [e1]

end Loop

/-- C18, as stated, fails for a yield written on line 65536.  The yield stores
`65536 % 65536 = 0` in `_ptLine`, so every call of `Run()` enters the body at `case 0:` and
starts the loop again.  With `n = 2` and `work(i)` appending `i` to a list, five calls from a
new object all return true, none returns false, and each of them executes `work(0)`. -/
theorem loop_yield_on_line_65536_restarts :
    RunEach 1 (forYield 2 65536 fun i (t : List Nat) => t ++ [i]) [id, id, id, id, id]
        (Protothread.construct (0, []))
      = some ([true, true, true, true, true], ⟨0, (0, [0, 0, 0, 0, 0])⟩) := by
  decide

/-- C18, amended.  `PT_YIELD()` returns true every time control reaches it, whatever the value
`y` of `ptYielded` is at that moment, so also in the call that has just resumed from it.  For
the body `for (_i = 0; _i < n; _i++) { work(_i); PT_YIELD(); }`, for every `n`, every effect
`work` and the yield on any line `l` from 1 to 65535, with fuel for at least one test of the
loop: called from a new object, the first `n` calls of `Run()` return true and call `n + 1`
returns false; after `k` calls, `1 ≤ k ≤ n`, the object is suspended at the yield with the
counter at `k - 1` and exactly `work(0)`, ..., `work(k - 1)` have been executed, one in each
call; the last call executes no `work`. -/
theorem yield_in_loop {τ : Type} (fuel n l : Nat) (work : Nat → τ → τ) (i0 : Nat) (t0 : τ)
    (hfuel : 0 < fuel) (h0 : 0 < l) (hl : l < LineNumberSize) :
    (∀ (y : Bool) (p : Protothread (Nat × τ)),
      exec fuel (Body.PT_YIELD l : Body (Nat × τ)).expand none y p
        = some (.returned true ⟨l, p.fields⟩)) ∧
    (∀ (k : Nat), k < n →
      RunEach fuel (forYield n l work) (List.replicate (k + 1) id)
          (Protothread.construct (i0, t0))
        = some (List.replicate (k + 1) true, ⟨l, (k, workDone work (k + 1) t0)⟩)) ∧
    RunEach fuel (forYield n l work) (List.replicate (n + 1) id)
        (Protothread.construct (i0, t0))
      = some (List.replicate n true ++ [false], ⟨LineNumberInvalid, (n, workDone work n t0)⟩) := by
  obtain ⟨f, rfl⟩ : ∃ f, fuel = f + 1 := ⟨fuel - 1, by omega⟩
  have hmod := line_mod_of_lt_size hl
  -- the first `k + 1` calls
  have hfirst : ∀ (k : Nat), k < n →
      RunEach (f + 1) (forYield n l work) (List.replicate (k + 1) id)
          (Protothread.construct (i0, t0))
        = some (List.replicate (k + 1) true, ⟨l, (k, workDone work (k + 1) t0)⟩) := by
    intro k hk
    have hstart := Run_forYield_start f n l work hl i0 t0
    rw [if_pos (by omega)] at hstart
    have hrest := RunEach_forYield_resume f n l work h0 hl k 0 t0 (by omega)
    have hw : workDone work (0 + 1) t0 = work 0 t0 := by
      rw [workDone_succ]; simp [workDone]
    rw [hw] at hrest
    simp only [List.replicate_succ, RunEach, id_eq, Protothread.construct, hstart, hrest]
    simp
  refine ⟨?_, hfirst, ?_⟩
  · intro y p
    rw [exec_yield_run, hmod]
  · cases n with
    | zero =>
      have hstart := Run_forYield_start f 0 l work hl i0 t0
      rw [if_neg (by omega)] at hstart
      simp [RunEach, Protothread.construct, hstart, workDone]
    | succ n =>
      have hn := hfirst n (by omega)
      have hlast := Run_forYield_resume f (n + 1) l work h0 hl n (workDone work (n + 1) t0)
      rw [if_neg (by omega)] at hlast
      have hsplit : List.replicate (n + 1 + 1) (id : Nat × τ → Nat × τ)
          = List.replicate (n + 1) id ++ [id] := by
        rw [List.replicate_succ' ]
      rw [hsplit, RunEach_append _ _ _ _ _ _ _ hn]
      simp [RunEach, hlast]

/-- Witness of C18 (amended): three turns, the yield on line 5, `work(i)` appending `i` to a
list, fuel for one test of the loop.  Four calls return true, true, true, false and the list
is `[0, 1, 2]`; after two calls it is `[0, 1]`.  The same four results with the yield on line
65535. -/
theorem yield_in_loop_witness :
    0 < 1 ∧ 0 < 5 ∧ 5 < LineNumberSize ∧
    RunEach 1 (forYield 3 5 fun i (t : List Nat) => t ++ [i]) [id, id]
        (Protothread.construct (9, []))
      = some ([true, true], ⟨5, (1, [0, 1])⟩) ∧
    RunEach 1 (forYield 3 5 fun i (t : List Nat) => t ++ [i]) [id, id, id, id]
        (Protothread.construct (9, []))
      = some ([true, true, true, false], ⟨LineNumberInvalid, (3, [0, 1, 2])⟩) ∧
    65535 < LineNumberSize ∧
    RunEach 1 (forYield 3 65535 fun i (t : List Nat) => t ++ [i]) [id, id, id, id]
        (Protothread.construct (9, []))
      = some ([true, true, true, false], ⟨LineNumberInvalid, (3, [0, 1, 2])⟩) :=
  ⟨by decide, by decide, by decide,
    (yield_in_loop 1 3 5 (fun i (t : List Nat) => t ++ [i]) 9 [] (by decide) (by decide)
      (by decide)).2.1 1 (by decide),
    (yield_in_loop 1 3 5 (fun i (t : List Nat) => t ++ [i]) 9 [] (by decide) (by decide)
      (by decide)).2.2,
    by decide,
    (yield_in_loop 1 3 65535 (fun i (t : List Nat) => t ++ [i]) 9 [] (by decide) (by decide)
      (by decide)).2.2⟩

end Protothreads
